import Mathlib

/-!
# speechtotext: the streaming pipeline of `runAsync`

A shallow embedding of `src/speechtotext.go`.  The program has three tasks:
the copy goroutine feeding an `io.Pipe` from standard input, the Sender
goroutine (configuration message, then the rate-limited read/send loop, then
`CloseSend`) and the Renderer, the receive loop of `runAsync` itself.

Everything the program does to the outside world is recorded as an event:
the calls on the outbound stream, the reads of the pipe, the writes to
standard output.  The outcomes of calls into the environment (the results
of `stream.Send`, `stream.CloseSend` and `stream.Recv`, the bytes of standard
input) are parameters.
-/

namespace Speechtotext

/-! ## Data model -/

/-- A byte of audio. -/
abbrev Byte := Nat

/-- The Go `error` values the pipeline distinguishes: the sentinel errors of
package `io` that `io.ReadAtLeast` can return, and any other error. -/
inductive GoError where
  | EOF
  | ErrUnexpectedEOF
  | ErrShortBuffer
  | other (msg : String)
  deriving DecidableEq, Repr

/-- The enum `speech.RecognitionConfig_AudioEncoding`. -/
inductive AudioEncoding where
  | ENCODING_UNSPECIFIED
  | LINEAR16
  | FLAC
  | MULAW
  | AMR
  | AMR_WB
  deriving DecidableEq, Repr

/-- The fields of `speech.RecognitionConfig` that the program sets. -/
structure RecognitionConfig where
  encoding : AudioEncoding
  sampleRate : Nat
  deriving DecidableEq, Repr

/-- The fields of `speech.StreamingRecognitionConfig` that the program sets. -/
structure StreamingRecognitionConfig where
  config : RecognitionConfig
  interimResults : Bool
  deriving DecidableEq, Repr

/-- The message `speech.StreamingRecognizeRequest`: a oneof of the streaming
configuration and a piece of audio. -/
inductive StreamingRecognizeRequest where
  | streamingConfig (c : StreamingRecognitionConfig)
  | audioContent (b : List Byte)
  deriving DecidableEq, Repr

/-- The request built at lines 57-67: LINEAR16, 16000 Hz, interim results. -/
def configRequest : StreamingRecognizeRequest :=
  .streamingConfig
    { config := { encoding := .LINEAR16, sampleRate := 16000 }
      interimResults := true }

/-- Whether a request is an audio-content message. -/
def StreamingRecognizeRequest.isAudio : StreamingRecognizeRequest → Bool
  | .audioContent _ => true
  | .streamingConfig _ => false

/-! ## The audio pipe -/

/-- The `io.Pipe` of line 50 together with the copy goroutine of lines 51-54, as
its read end sees them: `stdin` holds the bytes of standard input that have not
been read through the pipe yet, `closed` says that the write end has been closed
with `io.EOF`.  The copy goroutine closes the write end once standard input is
exhausted; the Renderer closes it at an end-of-speech message. -/
structure Pipe where
  stdin : List Byte
  closed : Bool
  deriving DecidableEq, Repr

/-- The call `out.CloseWithError(io.EOF)`: from now on every read reports
`io.EOF`; bytes not read yet are lost. -/
def Pipe.closeWithError (p : Pipe) : Pipe :=
  { p with closed := true }

/-- The result of `io.ReadAtLeast`: the count and error it returns, and the
buffer and the pipe as it leaves them. -/
structure ReadResult where
  n : Nat
  err : Option GoError
  buf : List Byte
  pipe : Pipe
  deriving DecidableEq, Repr

/-- Copying `data` over the front of the buffer `buf`; the bytes of `buf` behind
it stay as they were. -/
def overwrite (buf data : List Byte) : List Byte :=
  data ++ buf.drop data.length

/-- The call `io.ReadAtLeast(in, buf, min)` of line 75 on the read end of the
pipe, for a buffer of exactly `min` bytes (the program allocates `buf` with
`*bufSize` bytes and passes `*bufSize` as `min`).

`io.ReadAtLeast` calls `Read` until it has `min` bytes or `Read` fails.
With `min = 0` it returns at once.  On a closed pipe the first `Read` reports
`io.EOF` and nothing is stored.  When standard input still holds `min` bytes
they fill the buffer.  When it holds fewer, they are stored at the front of the
buffer, the copy goroutine closes the pipe, and the error is `io.EOF` if nothing
was read and `io.ErrUnexpectedEOF` otherwise. -/
def readAtLeast (p : Pipe) (buf : List Byte) (min : Nat) : ReadResult :=
  if buf.length < min then
    { n := 0, err := some .ErrShortBuffer, buf := buf, pipe := p }
  else if min = 0 then
    { n := 0, err := none, buf := buf, pipe := p }
  else if p.closed then
    { n := 0, err := some .EOF, buf := buf, pipe := p }
  else if min ≤ p.stdin.length then
    { n := min, err := none, buf := overwrite buf (p.stdin.take min),
      pipe := { p with stdin := p.stdin.drop min } }
  else
    { n := p.stdin.length,
      err := if p.stdin.length = 0 then some .EOF else some .ErrUnexpectedEOF,
      buf := overwrite buf p.stdin,
      pipe := { stdin := [], closed := true } }

/-! ## The Sender goroutine (lines 56-88) -/

/-- What the Sender goroutine does to its environment, in program order. -/
inductive SenderEvent where
  /-- The call `stream.Send(m)` and the error it returned. -/
  | send (m : StreamingRecognizeRequest) (res : Option GoError)
  /-- The call `limiter.Wait(ctx)`. -/
  | wait
  /-- The call `io.ReadAtLeast` with the count and error it returned. -/
  | read (n : Nat) (res : Option GoError)
  /-- The call `stream.CloseSend()` and the error it returned. -/
  | closeSend (res : Option GoError)
  /-- The call `log.Println("issue closing stream:", err)`. -/
  | logClose (err : GoError)
  deriving DecidableEq, Repr

/-- One pass through the body of the loop of lines 73-84, as a record. -/
structure Iteration where
  /-- The count returned by `io.ReadAtLeast` (discarded by the program). -/
  n : Nat
  /-- The error returned by `io.ReadAtLeast`. -/
  readErr : Option GoError
  /-- The buffer passed to `stream.Send` as `AudioContent`. -/
  sent : List Byte
  /-- The error returned by `stream.Send`. -/
  sendErr : Option GoError
  deriving DecidableEq, Repr

/-- Whether the read or the send of the iteration returned an error. -/
def Iteration.failed (it : Iteration) : Bool :=
  it.readErr.isSome || it.sendErr.isSome

/-- The events of one iteration, in program order. -/
def Iteration.events (it : Iteration) : List SenderEvent :=
  [.wait, .read it.n it.readErr, .send (.audioContent it.sent) it.sendErr]

/-- The variables of the Sender goroutine inside its loop, with the pipe it
reads and the iterations it has completed. -/
structure SenderVars where
  pipe : Pipe
  buf : List Byte
  rerr : Option GoError
  /-- The number of `stream.Send` calls made so far; the next call is the one
  with this index. -/
  sends : Nat
  iters : List Iteration
  deriving DecidableEq, Repr

/-- The record of the pass through the loop body that starts from `v`: what the
read returns, the buffer that is sent, what the send returns.  `sendRes i` is
the error returned by the `i`-th call of `stream.Send`. -/
def iteration (bufSize : Nat) (sendRes : Nat → Option GoError) (v : SenderVars) :
    Iteration :=
  let r := readAtLeast v.pipe v.buf bufSize
  { n := r.n, readErr := r.err, sent := r.buf, sendErr := sendRes v.sends }

/-- The body of the loop, lines 74-83: wait for the limiter, read into `buf`,
send `buf` whatever the read returned, and let a send error replace `rerr`. -/
def senderIter (bufSize : Nat) (sendRes : Nat → Option GoError) (v : SenderVars) :
    SenderVars :=
  let r := readAtLeast v.pipe v.buf bufSize
  let err := sendRes v.sends
  { pipe := r.pipe
    buf := r.buf
    rerr := match err with
      | some e => some e
      | none => r.err
    sends := v.sends + 1
    iters := v.iters ++ [iteration bufSize sendRes v] }

/-- The loop `for rerr == nil { ... }` of lines 73-84, run for at most `fuel`
iterations.  The loop has exited exactly when `rerr` of the result is set. -/
def senderLoop (bufSize : Nat) (sendRes : Nat → Option GoError) :
    Nat → SenderVars → SenderVars
  | 0, v => v
  | fuel + 1, v =>
    match v.rerr with
    | some _ => v
    | none => senderLoop bufSize sendRes fuel (senderIter bufSize sendRes v)

/-- A run of the Sender goroutine. -/
structure SenderRun where
  /-- The error of the first `stream.Send`, stored in `err` and never read. -/
  configErr : Option GoError
  /-- The variables when the loop was left, or when the fuel ran out. -/
  vars : SenderVars
  /-- The result of `stream.CloseSend()` when the goroutine got there. -/
  closed : Option (Option GoError)
  deriving DecidableEq, Repr

/-- The variables on entry to the loop, lines 68-72: the configuration has been
sent, `rerr` is nil, and `buf` is `make([]byte, *bufSize)`, all zero. -/
def SenderVars.init (bufSize : Nat) (pipe : Pipe) : SenderVars :=
  { pipe := pipe, buf := List.replicate bufSize 0, rerr := none, sends := 1, iters := [] }

/-- The Sender goroutine, lines 56-88: send the configuration, allocate the
buffer, run the loop, and close the outbound stream, logging a failure of the
close.  `closeRes` is the error returned by `stream.CloseSend()`. -/
def sender (bufSize : Nat) (sendRes : Nat → Option GoError) (closeRes : Option GoError)
    (fuel : Nat) (pipe : Pipe) : SenderRun :=
  let v := senderLoop bufSize sendRes fuel (SenderVars.init bufSize pipe)
  { configErr := sendRes 0
    vars := v
    closed := if v.rerr.isSome then some closeRes else none }

/-- The body of `if err := stream.CloseSend(); err != nil`, line 86: the log
line, written when the close failed. -/
def logOfClose : Option GoError → List SenderEvent
  | none => []
  | some err => [.logClose err]

/-- The events after the loop, lines 85-87: nothing while the loop is running,
`CloseSend` and its log line once it has been left. -/
def closeEvents : Option (Option GoError) → List SenderEvent
  | none => []
  | some res => .closeSend res :: logOfClose res

/-- Whether an event is a call of `stream.CloseSend()`. -/
def SenderEvent.isCloseSend : SenderEvent → Bool
  | .closeSend _ => true
  | _ => false

/-- The events of a run in program order. -/
def SenderRun.events (r : SenderRun) : List SenderEvent :=
  .send configRequest r.configErr :: (r.vars.iters.flatMap Iteration.events)
    ++ closeEvents r.closed

/-- The message of a `stream.Send` event. -/
def SenderEvent.message : SenderEvent → Option StreamingRecognizeRequest
  | .send m _ => some m
  | _ => none

/-- The messages submitted on the outbound stream, in order. -/
def SenderRun.submitted (r : SenderRun) : List StreamingRecognizeRequest :=
  r.events.filterMap SenderEvent.message

/-- A pipe over the given standard input, not closed yet. -/
def Pipe.ofStdin (bytes : List Byte) : Pipe :=
  { stdin := bytes, closed := false }

/-- Every send succeeds. -/
def allSendsOk : Nat → Option GoError := fun _ => none

/-! ## The inbound messages -/

/-- A value of Go's `float32` (IEEE-754 binary32): not-a-number, an infinity, or
the finite value `m * 2 ^ e`.  Both zeros are `fin 0 e`. -/
inductive Float32 where
  | nan
  | inf (negative : Bool)
  | fin (m : Int) (e : Int)
  deriving DecidableEq, Repr

/-- The finite values that binary32 has: a significand of at most 24 bits and an
exponent between that of the smallest subnormal and that of the largest
number. -/
def Float32.Representable : Float32 → Prop
  | .fin m e => m.natAbs < 2 ^ 24 ∧ -149 ≤ e ∧ e ≤ 104
  | _ => True

/-- The real value of a finite `float32`. -/
def Float32.toRat? : Float32 → Option ℚ
  | .fin m e => some ((m : ℚ) * (2 : ℚ) ^ e)
  | _ => none

/-- Go's `a < b` on `float32`: false when either side is not a number, the
order of the extended reals otherwise. -/
def Float32.lt : Float32 → Float32 → Bool
  | .nan, _ => false
  | _, .nan => false
  | .inf true, .inf true => false
  | .inf true, _ => true
  | _, .inf true => false
  | .inf false, _ => false
  | .fin _ _, .inf false => true
  | .fin m e, .fin m' e' => decide ((m : ℚ) * (2 : ℚ) ^ e < (m' : ℚ) * (2 : ℚ) ^ e')

/-- The constant `0.0` as a `float32`. -/
def f32_0_0 : Float32 := .fin 0 0

/-- The constant `0.6` as a `float32`: the nearest binary32 value,
`10066330 * 2 ^ (-24) = 0.60000002384185791015625`. -/
def f32_0_6 : Float32 := .fin 10066330 (-24)

/-- The enum `speech.StreamingRecognizeResponse_EndpointerType`. -/
inductive EndpointerType where
  | ENDPOINTER_EVENT_UNSPECIFIED
  | START_OF_SPEECH
  | END_OF_SPEECH
  | END_OF_AUDIO
  | END_OF_UTTERANCE
  deriving DecidableEq, Repr

/-- The field of `speech.SpeechRecognitionAlternative` that the program reads. -/
structure SpeechRecognitionAlternative where
  transcript : String
  deriving DecidableEq, Repr

/-- The fields of `speech.StreamingRecognitionResult` that the program reads. -/
structure StreamingRecognitionResult where
  alternatives : List SpeechRecognitionAlternative
  stability : Float32
  deriving DecidableEq, Repr

/-- The fields of `speech.StreamingRecognizeResponse` that the program reads.
`results` is a Go slice: `none` is the nil slice, `some []` an empty slice that
is not nil. -/
structure StreamingRecognizeResponse where
  results : Option (List StreamingRecognitionResult)
  endpointerType : EndpointerType
  deriving DecidableEq, Repr

/-! ## The Renderer: the receive loop of `runAsync` (lines 89-121) -/

/-- What the main goroutine does to its environment, in program order. -/
inductive MainEvent where
  /-- The call `fmt.Println(resp)` of verbose mode. -/
  | printlnResp (resp : StreamingRecognizeResponse)
  /-- Text written to standard output by one call of package `fmt`. -/
  | print (text : String)
  /-- The call `out.CloseWithError(io.EOF)` on the write end of the pipe. -/
  | closePipe
  deriving DecidableEq, Repr

/-- Go's `strings.Repeat(s, count)`. -/
def strings_Repeat (s : String) : Nat → String
  | 0 => ""
  | count + 1 => s ++ strings_Repeat s count

/-- Go's `len(s)` of a string: its length in bytes. -/
def len (s : String) : Nat := s.utf8ByteSize

/-- The condition of line 104,
`resp.Results[0].Stability > 0.0 && resp.Results[0].Stability < 0.6`. -/
def lowStability (s : Float32) : Bool :=
  Float32.lt f32_0_0 s && Float32.lt s f32_0_6

/-- The text of line 103: carriage return, `maxLine` spaces, carriage return. -/
def eraseText (maxLine : Nat) : String :=
  "\r" ++ strings_Repeat " " maxLine ++ "\r"

/-- The state of the main goroutine after one pass through the body of its loop:
the events of the pass, the counter `maxLine`, and whether the pass ended in an
index-out-of-range panic. -/
structure RenderStep where
  events : List MainEvent
  maxLine : Nat
  panicked : Bool
  deriving DecidableEq, Repr

/-- The events of lines 116-118: close the pipe at an end-of-speech message. -/
def endOfSpeech (resp : StreamingRecognizeResponse) : List MainEvent :=
  if resp.endpointerType = .END_OF_SPEECH then [.closePipe] else []

/-- The events of lines 99-101: the dump of the message in verbose mode. -/
def dump (verbose : Bool) (resp : StreamingRecognizeResponse) : List MainEvent :=
  if verbose then [.printlnResp resp] else []

/-- The body of the receive loop after a successful `stream.Recv()`, lines
99-118.  The index expressions `resp.Results[0]` and `.Alternatives[0]` panic
on an empty slice; what was written before the panic stays written. -/
def renderBody (verbose : Bool) (maxLine : Nat) (resp : StreamingRecognizeResponse) :
    RenderStep :=
  match resp.results with
  | none =>
    { events := dump verbose resp ++ endOfSpeech resp, maxLine := maxLine, panicked := false }
  | some [] =>
    { events := dump verbose resp ++ [.print (eraseText maxLine)],
      maxLine := maxLine, panicked := true }
  | some (r :: _) =>
    let marker : List MainEvent := if lowStability r.stability then [.print "?"] else []
    match r.alternatives with
    | [] =>
      { events := dump verbose resp ++ [.print (eraseText maxLine)] ++ marker,
        maxLine := maxLine, panicked := true }
    | a :: _ =>
      let transcript := a.transcript
      { events := dump verbose resp ++ [.print (eraseText maxLine)] ++ marker
          ++ [.print transcript] ++ (if verbose then [.print "\n"] else [])
          ++ endOfSpeech resp
        maxLine := if len transcript + 1 > maxLine then len transcript + 1 else maxLine
        panicked := false }

/-- How the main goroutine stands: still in its loop (blocked in `Recv`),
returned from `runAsync` with an error or `nil`, or stopped by a panic. -/
inductive Outcome where
  | running
  | returned (err : Option GoError)
  | panicked
  deriving DecidableEq, Repr

/-- The main goroutine in its loop: events so far, `maxLine`, outcome. -/
structure MainRun where
  events : List MainEvent
  maxLine : Nat
  outcome : Outcome
  deriving DecidableEq, Repr

/-- The receive loop of lines 91-119 with the deferred `fmt.Println()` of line
90.  `recvs` lists the results of the successive calls of `stream.Recv()`; when
the list is used up the loop is blocked in the next call. -/
def rendererLoop (verbose : Bool) : List (Except GoError StreamingRecognizeResponse) →
    Nat → MainRun
  | [], maxLine => { events := [], maxLine := maxLine, outcome := .running }
  | .error err :: _, maxLine =>
    { events := [.print "\n"], maxLine := maxLine,
      outcome := .returned (if err = .EOF then none else some err) }
  | .ok resp :: rest, maxLine =>
    let step := renderBody verbose maxLine resp
    if step.panicked then
      { events := step.events ++ [.print "\n"], maxLine := step.maxLine, outcome := .panicked }
    else
      let run := rendererLoop verbose rest step.maxLine
      { run with events := step.events ++ run.events }

/-- The main goroutine of `runAsync` from line 89 on: `maxLine := 0`, then the
loop. -/
def renderer (verbose : Bool) (recvs : List (Except GoError StreamingRecognizeResponse)) :
    MainRun :=
  rendererLoop verbose recvs 0

/-! ## The goroutines side by side -/

/-- The calls into the environment whose results `runAsync` depends on. -/
structure Env where
  /-- The flag `-bufSize`. -/
  bufSize : Nat
  /-- The flag `-v`. -/
  verbose : Bool
  /-- The error returned by `speechClient`. -/
  clientErr : Option GoError
  /-- The error returned by `client.StreamingRecognize`. -/
  streamErr : Option GoError
  /-- The bytes of standard input. -/
  stdin : List Byte
  /-- The error returned by the `i`-th call of `stream.Send`. -/
  sendRes : Nat → Option GoError
  /-- The error returned by `stream.CloseSend()`. -/
  closeRes : Option GoError
  /-- The results of the successive calls of `stream.Recv()`. -/
  recvs : List (Except GoError StreamingRecognizeResponse)

/-- The goroutines that take steps: the Sender and the main goroutine.  (The
copy goroutine is part of `Pipe`.) -/
inductive Goroutine where
  | sender
  | main
  deriving DecidableEq, Repr

/-- Where the Sender goroutine stands: before the configuration message, in the
loop, or past `CloseSend`. -/
inductive SenderPc where
  | start
  | loop
  | done
  deriving DecidableEq, Repr

/-- An event of either goroutine. -/
inductive SessionEvent where
  | sender (e : SenderEvent)
  | main (e : MainEvent)
  deriving DecidableEq, Repr

/-- The state of `runAsync` once both goroutines exist: the Sender with its
variables and the pipe, the main goroutine with `maxLine`, the receives to
come and its outcome, and the events of both in the order they happened.
The goroutines interleave at the grain of their loops: a step is one whole pass
through a loop body. -/
structure Session where
  pc : SenderPc
  vars : SenderVars
  maxLine : Nat
  recvs : List (Except GoError StreamingRecognizeResponse)
  outcome : Outcome
  trace : List SessionEvent

/-- One step of the Sender goroutine: the configuration message, or one pass
through the loop body, or, once `rerr` is set, `CloseSend` with its log line. -/
def Session.stepSender (env : Env) (s : Session) : Session :=
  match s.pc with
  | .start =>
    { s with pc := .loop, trace := s.trace ++ [.sender (.send configRequest (env.sendRes 0))] }
  | .loop =>
    match s.vars.rerr with
    | none =>
      { s with
        vars := senderIter env.bufSize env.sendRes s.vars
        trace := s.trace ++
          (iteration env.bufSize env.sendRes s.vars).events.map SessionEvent.sender }
    | some _ =>
      { s with
        pc := .done
        trace := s.trace ++ (closeEvents (some env.closeRes)).map SessionEvent.sender }
  | .done => s

/-- One step of the main goroutine: one call of `stream.Recv()` and what
follows it.  A `closePipe` event of the body closes the pipe the Sender reads. -/
def Session.stepMain (env : Env) (s : Session) : Session :=
  match s.outcome, s.recvs with
  | .running, .error err :: rest =>
    { s with
      recvs := rest
      outcome := .returned (if err = .EOF then none else some err)
      trace := s.trace ++ [.main (.print "\n")] }
  | .running, .ok resp :: rest =>
    let step := renderBody env.verbose s.maxLine resp
    { s with
      vars := if MainEvent.closePipe ∈ step.events
        then { s.vars with pipe := s.vars.pipe.closeWithError } else s.vars
      maxLine := step.maxLine
      recvs := rest
      outcome := if step.panicked then .panicked else .running
      trace := s.trace ++ step.events.map SessionEvent.main
        ++ (if step.panicked then [.main (.print "\n")] else []) }
  | _, _ => s

/-- A step of the given goroutine. -/
def Session.step (env : Env) (s : Session) : Goroutine → Session
  | .sender => s.stepSender env
  | .main => s.stepMain env

/-- The steps of a schedule, one after the other. -/
def Session.run (env : Env) (s : Session) (schedule : List Goroutine) : Session :=
  schedule.foldl (Session.step env) s

/-- The state at line 56, when the goroutines are started. -/
def Session.init (env : Env) : Session :=
  { pc := .start
    vars := SenderVars.init env.bufSize (Pipe.ofStdin env.stdin)
    maxLine := 0
    recvs := env.recvs
    outcome := .running
    trace := [] }

/-- The function `runAsync` under a schedule of its goroutines: it returns the
error of `speechClient` or of `StreamingRecognize` before anything is started
(lines 41-49), and runs the goroutines otherwise.  The outcome of the session is
what `runAsync` returns.  When `runAsync` has returned the program ends, which
cuts the schedule short; the model lets the Sender go on for as long as the
schedule says. -/
def runAsync (env : Env) (schedule : List Goroutine) : Session :=
  match env.clientErr with
  | some err => { Session.init env with pc := .done, outcome := .returned (some err) }
  | none =>
    match env.streamErr with
    | some err => { Session.init env with pc := .done, outcome := .returned (some err) }
    | none => (Session.init env).run env schedule

/-- The events of the main goroutine in a trace. -/
def mainEvents (trace : List SessionEvent) : List MainEvent :=
  trace.filterMap fun
    | .main e => some e
    | .sender _ => none

/-- The events of the Sender goroutine in a trace. -/
def senderEvents (trace : List SessionEvent) : List SenderEvent :=
  trace.filterMap fun
    | .sender e => some e
    | .main _ => none

/-! ## Predicates used in the statements -/

/-- The loop invariant on the record of iterations: while `rerr` is nil no
iteration has failed, and once it is set exactly the last one has. -/
def LoopInv (v : SenderVars) : Prop :=
  (v.rerr = none → ∀ it ∈ v.iters, it.failed = false) ∧
  (v.rerr ≠ none → ∃ init last, v.iters = init ++ [last] ∧ last.failed = true ∧
    ∀ it ∈ init, it.failed = false)

/-- Two sessions that differ at most in the events of the Sender. -/
def Session.Agree (s t : Session) : Prop :=
  s.pc = t.pc ∧ s.vars = t.vars ∧ s.maxLine = t.maxLine ∧ s.recvs = t.recvs ∧
    s.outcome = t.outcome ∧ mainEvents s.trace = mainEvents t.trace

/-- The environment of the end-of-speech scenario: buffers of 2 bytes, 4 bytes on
standard input, every send succeeding, and one inbound message, without
results, that reports END_OF_SPEECH. -/
def endOfSpeechEnv : Env :=
  { bufSize := 2
    verbose := false
    clientErr := none
    streamErr := none
    stdin := [1, 2, 3, 4]
    sendRes := allSendsOk
    closeRes := none
    recvs := [.ok { results := none, endpointerType := .END_OF_SPEECH }] }

/-- An inbound message with one result that has one alternative. -/
def transcriptUpdate (transcript : String) (stability : Float32) :
    StreamingRecognizeResponse :=
  { results := some [{ alternatives := [{ transcript := transcript }], stability := stability }]
    endpointerType := .ENDPOINTER_EVENT_UNSPECIFIED }

/-- The constant `0.59` as a `float32`: the nearest binary32 value,
`9898557 * 2 ^ (-24)`. -/
def f32_0_59 : Float32 := .fin 9898557 (-24)

/-- The number of bytes that the `print` events of a list write. -/
def printedLen : List MainEvent → Nat
  | [] => 0
  | .print text :: events => len text + printedLen events
  | _ :: events => printedLen events

/-- A message that has results: its first result exists and has a first
alternative. -/
def HasTranscript (resp : StreamingRecognizeResponse) : Prop :=
  ∃ r rs a as, resp.results = some (r :: rs) ∧ r.alternatives = a :: as

/-- A message on which the loop body does not panic: its results are nil, or its
first result exists and has a first alternative. -/
def Renderable (resp : StreamingRecognizeResponse) : Prop :=
  resp.results = none ∨ HasTranscript resp

/-- Processing messages one after the other in the order of the list: the
events of the loop body for each, with `maxLine` handed on, and the `maxLine`
at the end. -/
def renderAll (verbose : Bool) : List StreamingRecognizeResponse → Nat → List MainEvent × Nat
  | [], maxLine => ([], maxLine)
  | resp :: rest, maxLine =>
    ((renderBody verbose maxLine resp).events
        ++ (renderAll verbose rest (renderBody verbose maxLine resp).maxLine).1,
      (renderAll verbose rest (renderBody verbose maxLine resp).maxLine).2)

/-- The main goroutine of a session follows `renderer`: what it has done so far
and what `rendererLoop` does with the receives to come make up the run of
`renderer` on all receives. -/
def Session.Follows (env : Env) (s : Session) : Prop :=
  match s.outcome with
  | .running =>
    renderer env.verbose env.recvs
      = { events := mainEvents s.trace ++ (rendererLoop env.verbose s.recvs s.maxLine).events
          maxLine := (rendererLoop env.verbose s.recvs s.maxLine).maxLine
          outcome := (rendererLoop env.verbose s.recvs s.maxLine).outcome }
  | o =>
    renderer env.verbose env.recvs
      = { events := mainEvents s.trace, maxLine := s.maxLine, outcome := o }

/-- The events of the Sender in a session are those of its program counter and
its record of iterations, and the record obeys the loop invariant. -/
def Session.SenderInv (env : Env) (s : Session) : Prop :=
  LoopInv s.vars ∧
  match s.pc with
  | .start => s.vars.iters = [] ∧ s.vars.rerr = none ∧ senderEvents s.trace = []
  | .loop =>
    senderEvents s.trace
      = .send configRequest (env.sendRes 0) :: s.vars.iters.flatMap Iteration.events
  | .done =>
    s.vars.rerr ≠ none ∧
    senderEvents s.trace
      = .send configRequest (env.sendRes 0) :: s.vars.iters.flatMap Iteration.events
        ++ .closeSend env.closeRes :: logOfClose env.closeRes

/-! ## The Sender: lemmas -/

theorem filterMap_message_iterations (its : List Iteration) :
    (its.flatMap Iteration.events).filterMap SenderEvent.message
      = its.map fun it => StreamingRecognizeRequest.audioContent it.sent := by
  induction its with
  | nil => rfl
  | cons it its ih =>
    simp only [List.flatMap_cons, List.filterMap_append, ih, List.map_cons]
    rfl

theorem filterMap_message_closeEvents (c : Option (Option GoError)) :
    (closeEvents c).filterMap SenderEvent.message = [] := by
  rcases c with _ | _ | e <;> rfl

theorem submitted_eq (r : SenderRun) :
    r.submitted = configRequest ::
      r.vars.iters.map fun it => StreamingRecognizeRequest.audioContent it.sent := by
  unfold SenderRun.submitted SenderRun.events
  rw [List.cons_append,
    List.filterMap_cons_some (f := SenderEvent.message) (a := .send configRequest r.configErr)
      (b := configRequest) rfl,
    List.filterMap_append, filterMap_message_iterations, filterMap_message_closeEvents,
    List.append_nil]

theorem senderIter_rerr (bufSize : Nat) (sendRes : Nat → Option GoError) (v : SenderVars) :
    ((senderIter bufSize sendRes v).rerr = none ↔
      (iteration bufSize sendRes v).failed = false) := by
  unfold senderIter iteration Iteration.failed
  cases h : sendRes v.sends <;> cases h' : (readAtLeast v.pipe v.buf bufSize).err <;> simp

theorem senderIter_inv (bufSize : Nat) (sendRes : Nat → Option GoError) (v : SenderVars)
    (hv : LoopInv v) (hr : v.rerr = none) : LoopInv (senderIter bufSize sendRes v) := by
  have hall := hv.1 hr
  have hiters : (senderIter bufSize sendRes v).iters
      = v.iters ++ [iteration bufSize sendRes v] := rfl
  constructor
  · intro h it hit
    rw [hiters, List.mem_append, List.mem_singleton] at hit
    rcases hit with hit | rfl
    · exact hall it hit
    · exact (senderIter_rerr bufSize sendRes v).1 h
  · intro h
    refine ⟨v.iters, iteration bufSize sendRes v, hiters, ?_, hall⟩
    cases hf : (iteration bufSize sendRes v).failed
    · exact absurd ((senderIter_rerr bufSize sendRes v).2 hf) h
    · rfl

theorem senderLoop_inv (bufSize : Nat) (sendRes : Nat → Option GoError) (fuel : Nat) :
    ∀ v, LoopInv v → LoopInv (senderLoop bufSize sendRes fuel v) := by
  induction fuel with
  | zero => intro v hv; exact hv
  | succ fuel ih =>
    intro v hv
    unfold senderLoop
    cases hr : v.rerr with
    | some e => exact hv
    | none => exact ih _ (senderIter_inv bufSize sendRes v hv hr)

theorem init_inv (bufSize : Nat) (pipe : Pipe) : LoopInv (SenderVars.init bufSize pipe) := by
  constructor
  · intro _ it hit
    simp [SenderVars.init] at hit
  · intro h
    exact absurd rfl h

/-- No iteration follows a failed one. -/
theorem LoopInv.no_iteration_after_failure {v : SenderVars} (hv : LoopInv v)
    (init : List Iteration) (it : Iteration) (rest : List Iteration)
    (h : v.iters = init ++ it :: rest) (hf : it.failed = true) : rest = [] := by
  cases hr : v.rerr with
  | none =>
    have := hv.1 hr it (by rw [h]; simp)
    rw [hf] at this
    exact absurd this (by decide)
  | some e =>
    obtain ⟨init', last, hi, _, hall⟩ := hv.2 (by rw [hr]; simp)
    rcases List.eq_nil_or_concat rest with hnil | ⟨rest', x, hx⟩
    · exact hnil
    · exfalso
      rw [h, hx, List.concat_eq_append, ← List.cons_append, ← List.append_assoc] at hi
      have := List.append_inj_left' hi rfl
      have hmem : it ∈ init' := by rw [← this]; simp
      have := hall it hmem
      rw [hf] at this
      exact absurd this (by decide)

theorem senderLoop_of_rerr (bufSize : Nat) (sendRes : Nat → Option GoError) (fuel : Nat)
    (v : SenderVars) (h : v.rerr ≠ none) : senderLoop bufSize sendRes fuel v = v := by
  cases fuel with
  | zero => rfl
  | succ fuel =>
    unfold senderLoop
    cases hr : v.rerr with
    | some e => rfl
    | none => exact absurd hr h

/-- A read that succeeds with a positive buffer size takes `bufSize` bytes off
standard input. -/
theorem readAtLeast_ok (p : Pipe) (buf : List Byte) (min : Nat) (hmin : 0 < min)
    (h : (readAtLeast p buf min).err = none) :
    min ≤ p.stdin.length ∧ (readAtLeast p buf min).pipe.stdin = p.stdin.drop min := by
  unfold readAtLeast at h ⊢
  split_ifs at h ⊢ with h1 h2 h3 h4 h5
  · omega
  · exact ⟨h4, rfl⟩

theorem senderIter_stdin (bufSize : Nat) (sendRes : Nat → Option GoError) (v : SenderVars)
    (hB : 0 < bufSize) (h : (senderIter bufSize sendRes v).rerr = none) :
    bufSize ≤ v.pipe.stdin.length ∧
      (senderIter bufSize sendRes v).pipe.stdin = v.pipe.stdin.drop bufSize := by
  have herr : (readAtLeast v.pipe v.buf bufSize).err = none := by
    unfold senderIter at h
    cases hs : sendRes v.sends with
    | some e => simp [hs] at h
    | none => simpa [hs] using h
  exact readAtLeast_ok v.pipe v.buf bufSize hB herr

/-- With a positive buffer size the loop is left after at most one iteration
more than standard input has full buffers. -/
theorem senderLoop_exits (bufSize : Nat) (sendRes : Nat → Option GoError) (hB : 0 < bufSize)
    (fuel : Nat) : ∀ v : SenderVars, v.pipe.stdin.length / bufSize < fuel →
      (senderLoop bufSize sendRes fuel v).rerr ≠ none := by
  induction fuel with
  | zero => intro v h; exact absurd h (Nat.not_lt_zero _)
  | succ fuel ih =>
    intro v h
    unfold senderLoop
    cases hr : v.rerr with
    | some e => simp [hr]
    | none =>
      simp only
      cases hr' : (senderIter bufSize sendRes v).rerr with
      | some e =>
        rw [senderLoop_of_rerr _ _ _ _ (by rw [hr']; simp), hr']
        simp
      | none =>
        obtain ⟨hle, hdrop⟩ := senderIter_stdin bufSize sendRes v hB hr'
        apply ih
        rw [hdrop, List.length_drop, Nat.div_lt_iff_lt_mul hB]
        rw [Nat.div_lt_iff_lt_mul hB, Nat.succ_mul] at h
        omega


theorem readAtLeast_full (buf c rest : List Byte) (min : Nat) (hmin : 0 < min)
    (hbuf : buf.length = min) (hc : c.length = min) :
    readAtLeast (Pipe.ofStdin (c ++ rest)) buf min
      = { n := min, err := none, buf := c, pipe := Pipe.ofStdin rest } := by
  unfold readAtLeast Pipe.ofStdin overwrite
  have h1 : ¬ buf.length < min := by omega
  have h2 : ¬ min = 0 := by omega
  have h3 : min ≤ (c ++ rest).length := by simp [hc]
  simp only [h1, h2, h3, if_false, if_true, Bool.false_eq_true]
  have h4 : List.take min (c ++ rest) = c := by
    rw [← hc]; exact List.take_left' rfl
  have h5 : List.drop min (c ++ rest) = rest := by
    rw [← hc]; exact List.drop_left' rfl
  have h6 : List.drop c.length buf = [] := by
    rw [List.drop_eq_nil_iff]; omega
  simp [h4, h5, h6]

theorem readAtLeast_short (buf tail : List Byte) (min : Nat)
    (hbuf : buf.length = min) (ht : tail.length < min) :
    readAtLeast (Pipe.ofStdin tail) buf min
      = { n := tail.length,
          err := if tail.length = 0 then some .EOF else some .ErrUnexpectedEOF,
          buf := overwrite buf tail, pipe := { stdin := [], closed := true } } := by
  unfold readAtLeast Pipe.ofStdin
  have h1 : ¬ buf.length < min := by omega
  have h2 : ¬ min = 0 := by omega
  have h3 : ¬ min ≤ tail.length := by omega
  simp only [h1, h2, h3, if_false, Bool.false_eq_true]

/-- The loop on a standard input of full buffers followed by fewer than
`bufSize` bytes, every send succeeding: one iteration for each full buffer, and
one more whose read fails and which sends the buffer all the same. -/
theorem senderLoop_chunks (bufSize : Nat) (hB : 0 < bufSize) (tail : List Byte)
    (ht : tail.length < bufSize) :
    ∀ (chunks : List (List Byte)) (fuel : Nat) (v : SenderVars),
      (∀ c ∈ chunks, c.length = bufSize) → v.buf.length = bufSize → v.rerr = none →
      v.pipe = Pipe.ofStdin (chunks.flatten ++ tail) → chunks.length < fuel →
      (senderLoop bufSize allSendsOk fuel v).iters.map Iteration.sent
          = v.iters.map Iteration.sent ++ chunks
            ++ [overwrite (chunks.getLast?.getD v.buf) tail] ∧
        (senderLoop bufSize allSendsOk fuel v).rerr
          = if tail.length = 0 then some .EOF else some .ErrUnexpectedEOF := by
  intro chunks
  induction chunks with
  | nil =>
    intro fuel v _ hbuf hr hp hfuel
    obtain ⟨fuel, rfl⟩ : ∃ k, fuel = k + 1 := ⟨fuel - 1, by simp at hfuel; omega⟩
    have hread := readAtLeast_short v.buf tail bufSize hbuf ht
    simp only [List.flatten_nil, List.nil_append] at hp
    have hiter : senderIter bufSize allSendsOk v
        = { pipe := { stdin := [], closed := true }, buf := overwrite v.buf tail,
            rerr := if tail.length = 0 then some .EOF else some .ErrUnexpectedEOF,
            sends := v.sends + 1,
            iters := v.iters ++ [Iteration.mk tail.length
              (if tail.length = 0 then some .EOF else some .ErrUnexpectedEOF)
              (overwrite v.buf tail) none] } := by
      simp only [senderIter, iteration, hp, hread, allSendsOk]
    unfold senderLoop
    simp only [hr]
    rw [senderLoop_of_rerr _ _ _ _ (by rw [hiter]; split_ifs <;> simp), hiter]
    simp
  | cons c cs ih =>
    intro fuel v hlen hbuf hr hp hfuel
    obtain ⟨fuel, rfl⟩ : ∃ k, fuel = k + 1 := ⟨fuel - 1, by simp at hfuel; omega⟩
    have hc : c.length = bufSize := hlen c (by simp)
    simp only [List.flatten_cons, List.append_assoc] at hp
    have hread := readAtLeast_full v.buf c (cs.flatten ++ tail) bufSize hB hbuf hc
    have hiter : senderIter bufSize allSendsOk v
        = { pipe := Pipe.ofStdin (cs.flatten ++ tail), buf := c, rerr := none,
            sends := v.sends + 1,
            iters := v.iters ++ [Iteration.mk bufSize none c none] } := by
      simp only [senderIter, iteration, hp, hread, allSendsOk]
    unfold senderLoop
    simp only [hr]
    have := ih fuel (senderIter bufSize allSendsOk v)
      (fun c' hc' => hlen c' (by simp [hc'])) (by rw [hiter]; exact hc) (by rw [hiter])
      (by rw [hiter]) (by simp at hfuel; omega)
    rw [this.1, this.2, hiter]
    refine ⟨?_, rfl⟩
    cases cs with
    | nil => simp
    | cons c' cs' =>
      have hl : (c' :: cs').getLast? = some ((c' :: cs').getLast (List.cons_ne_nil _ _)) :=
        List.getLast?_eq_getLast _ _
      simp [List.getLast?_cons_cons, hl]

/-- The messages of the Sender on a standard input of full buffers followed by
fewer than `bufSize` bytes, every send succeeding. -/
theorem sender_chunks (bufSize : Nat) (hB : 0 < bufSize) (chunks : List (List Byte))
    (tail : List Byte) (hlen : ∀ c ∈ chunks, c.length = bufSize)
    (ht : tail.length < bufSize) (closeRes : Option GoError) (fuel : Nat)
    (hfuel : chunks.length < fuel) :
    (sender bufSize allSendsOk closeRes fuel (Pipe.ofStdin (chunks.flatten ++ tail))).submitted
      = configRequest :: (chunks ++
          [overwrite (chunks.getLast?.getD (List.replicate bufSize 0)) tail]).map
            StreamingRecognizeRequest.audioContent ∧
    (sender bufSize allSendsOk closeRes fuel (Pipe.ofStdin (chunks.flatten ++ tail))).closed
      = some closeRes := by
  have h := senderLoop_chunks bufSize hB tail ht chunks fuel
    (SenderVars.init bufSize (Pipe.ofStdin (chunks.flatten ++ tail))) hlen
    (by simp [SenderVars.init]) rfl rfl hfuel
  constructor
  · rw [submitted_eq]
    have : (fun it : Iteration => StreamingRecognizeRequest.audioContent it.sent)
        = StreamingRecognizeRequest.audioContent ∘ Iteration.sent := rfl
    rw [this, ← List.map_map]
    unfold sender
    simp only
    rw [h.1]
    simp [SenderVars.init]
  · unfold sender
    simp only
    rw [h.2]
    split_ifs <;> simp_all


/-! ## The session: lemmas -/

theorem mainEvents_append (a b : List SessionEvent) :
    mainEvents (a ++ b) = mainEvents a ++ mainEvents b := by
  simp [mainEvents]

theorem mainEvents_sender (l : List SenderEvent) :
    mainEvents (l.map SessionEvent.sender) = [] := by
  induction l with
  | nil => rfl
  | cons e l ih => simp [mainEvents]

theorem mainEvents_main (l : List MainEvent) :
    mainEvents (l.map SessionEvent.main) = l := by
  induction l with
  | nil => rfl
  | cons e l ih =>
    simp only [mainEvents, List.map_cons, List.filterMap_cons] at ih ⊢
    rw [ih]

theorem stepSender_agree (env : Env) (c : Option GoError) (s t : Session)
    (h : s.Agree t) :
    (s.stepSender { env with closeRes := c }).Agree (t.stepSender env) := by
  obtain ⟨pc, vars, maxLine, recvs, outcome, trace⟩ := s
  obtain ⟨pc', vars', maxLine', recvs', outcome', trace'⟩ := t
  obtain ⟨h1, h2, h3, h4, h5, h6⟩ := h
  simp only at h1 h2 h3 h4 h5 h6
  subst h1 h2 h3 h4 h5
  cases pc with
  | start =>
    refine ⟨rfl, rfl, rfl, rfl, rfl, ?_⟩
    simp only [Session.stepSender, mainEvents_append, h6]
  | loop =>
    cases hr : vars.rerr with
    | none =>
      simp only [Session.stepSender, hr]
      refine ⟨rfl, rfl, rfl, rfl, rfl, ?_⟩
      simp only [mainEvents_append, mainEvents_sender, h6]
    | some e =>
      simp only [Session.stepSender, hr]
      refine ⟨rfl, rfl, rfl, rfl, rfl, ?_⟩
      simp only [mainEvents_append, mainEvents_sender, h6]
  | done => exact ⟨rfl, rfl, rfl, rfl, rfl, h6⟩

theorem stepMain_agree (env : Env) (c : Option GoError) (s t : Session)
    (h : s.Agree t) :
    (s.stepMain { env with closeRes := c }).Agree (t.stepMain env) := by
  obtain ⟨pc, vars, maxLine, recvs, outcome, trace⟩ := s
  obtain ⟨pc', vars', maxLine', recvs', outcome', trace'⟩ := t
  obtain ⟨h1, h2, h3, h4, h5, h6⟩ := h
  simp only at h1 h2 h3 h4 h5 h6
  subst h1 h2 h3 h4 h5
  cases outcome with
  | running =>
    cases recvs with
    | nil => exact ⟨rfl, rfl, rfl, rfl, rfl, h6⟩
    | cons r rest =>
      cases r with
      | error err =>
        refine ⟨rfl, rfl, rfl, rfl, rfl, ?_⟩
        simp only [Session.stepMain, mainEvents_append, h6]
      | ok resp =>
        refine ⟨rfl, rfl, rfl, rfl, rfl, ?_⟩
        simp only [Session.stepMain, mainEvents_append, h6]
  | returned err => exact ⟨rfl, rfl, rfl, rfl, rfl, h6⟩
  | panicked => exact ⟨rfl, rfl, rfl, rfl, rfl, h6⟩

theorem run_agree (env : Env) (c : Option GoError) (schedule : List Goroutine) :
    ∀ s t : Session, s.Agree t →
      (s.run { env with closeRes := c } schedule).Agree (t.run env schedule) := by
  induction schedule with
  | nil => intro s t h; exact h
  | cons task schedule ih =>
    intro s t h
    unfold Session.run
    rw [List.foldl_cons, List.foldl_cons]
    apply ih
    cases task with
    | sender => exact stepSender_agree env c s t h
    | main => exact stepMain_agree env c s t h

/-- The result of `runAsync` and the output of the main goroutine do not depend
on what `CloseSend` returns. -/
theorem runAsync_closeRes (env : Env) (c : Option GoError) (schedule : List Goroutine) :
    (runAsync { env with closeRes := c } schedule).outcome = (runAsync env schedule).outcome ∧
    mainEvents (runAsync { env with closeRes := c } schedule).trace
      = mainEvents (runAsync env schedule).trace := by
  unfold runAsync
  cases hc : env.clientErr with
  | some e => simp [hc, Session.init]
  | none =>
    cases hs : env.streamErr with
    | some e => simp [hc, hs, Session.init]
    | none =>
      simp only [hc, hs]
      have := run_agree env c schedule (Session.init { env with closeRes := c })
        (Session.init env) ⟨rfl, rfl, rfl, rfl, rfl, rfl⟩
      exact ⟨this.2.2.2.2.1, this.2.2.2.2.2⟩


/-! ## The stability threshold: lemmas -/

/-- No `float32` lies in the gap between the real number 3/5 and the `float32`
constant `0.6`. -/
theorem float32_gap (m e : Int) (hm : m.natAbs < 2 ^ 24)
    (h1 : (3 : ℚ) / 5 ≤ (m : ℚ) * (2 : ℚ) ^ e) :
    (10066330 : ℚ) * (2 : ℚ) ^ (-24 : Int) ≤ (m : ℚ) * (2 : ℚ) ^ e := by
  have hpos : (0 : ℚ) < (2 : ℚ) ^ e := zpow_pos (by norm_num) e
  have hmpos : (0 : ℚ) < (m : ℚ) := by
    by_contra hneg
    have hle : (m : ℚ) ≤ 0 := not_lt.mp hneg
    have : (m : ℚ) * (2 : ℚ) ^ e ≤ 0 := mul_nonpos_of_nonpos_of_nonneg hle hpos.le
    linarith
  have hmlt : (m : ℚ) < 16777216 := by
    have h : m < 16777216 := by omega
    exact_mod_cast h
  have h24 : (2 : ℚ) ^ (-24 : Int) = 1 / 16777216 := by
    rw [zpow_neg]; norm_num
  by_cases he : -24 ≤ e
  · obtain ⟨k, hk⟩ : ∃ k : ℕ, e = (k : Int) - 24 := ⟨(e + 24).toNat, by omega⟩
    have h2 : (2 : ℚ) ^ e = 2 ^ k / 16777216 := by
      rw [hk, zpow_sub₀ (by norm_num : (2 : ℚ) ≠ 0), zpow_natCast]; norm_num
    rw [h2] at h1 ⊢
    rw [h24]
    have h3 : (10066329 : ℚ) < ((m * 2 ^ k : Int) : ℚ) := by
      push_cast
      have : (3 : ℚ) / 5 * 16777216 ≤ (m : ℚ) * (2 ^ k / 16777216) * 16777216 :=
        mul_le_mul_of_nonneg_right h1 (by norm_num)
      have h' : (m : ℚ) * (2 ^ k / 16777216) * 16777216 = (m : ℚ) * 2 ^ k := by
        field_simp
      rw [h'] at this
      norm_num at this
      linarith
    have h4 : (10066329 : Int) < m * 2 ^ k := by exact_mod_cast h3
    have h5 : (10066330 : Int) ≤ m * 2 ^ k := by omega
    have h6 : (10066330 : ℚ) ≤ (m : ℚ) * 2 ^ k := by exact_mod_cast h5
    have h7 : (m : ℚ) * (2 ^ k / 16777216) = (m : ℚ) * 2 ^ k / 16777216 := by ring
    rw [h7, mul_one_div]
    exact div_le_div_of_nonneg_right h6 (by norm_num)
  · exfalso
    have he' : e ≤ -25 := by omega
    have h2 : (2 : ℚ) ^ e ≤ (2 : ℚ) ^ (-25 : Int) :=
      zpow_le_zpow_right₀ (by norm_num) he'
    have h25 : (2 : ℚ) ^ (-25 : Int) = 1 / 33554432 := by
      rw [zpow_neg]; norm_num
    have h3 : (m : ℚ) * (2 : ℚ) ^ e ≤ (m : ℚ) * (1 / 33554432) := by
      rw [← h25]; exact mul_le_mul_of_nonneg_left h2 hmpos.le
    have h4 : (m : ℚ) * (1 / 33554432) < 16777216 * (1 / 33554432) :=
      mul_lt_mul_of_pos_right hmlt (by norm_num)
    norm_num at h4
    linarith

/-- The condition of line 104 on `float32` values is the condition
`0 < s < 0.6` on the real numbers they stand for. -/
theorem lowStability_iff (s : Float32) (hs : s.Representable) :
    lowStability s = true ↔ ∃ q : ℚ, s.toRat? = some q ∧ 0 < q ∧ q < 3 / 5 := by
  cases s with
  | nan => simp [lowStability, Float32.lt, Float32.toRat?]
  | inf negative => cases negative <;> simp [lowStability, Float32.lt, Float32.toRat?, f32_0_0, f32_0_6]
  | fin m e =>
    have hm : m.natAbs < 2 ^ 24 := hs.1
    simp only [lowStability, Float32.lt, Float32.toRat?, f32_0_0, f32_0_6, Bool.and_eq_true,
      decide_eq_true_eq, Option.some.injEq, exists_eq_left']
    have h06 : (3 : ℚ) / 5 < ((10066330 : Int) : ℚ) * (2 : ℚ) ^ (-24 : Int) := by
      rw [zpow_neg]; norm_num
    constructor
    · rintro ⟨h0, h1⟩
      refine ⟨by simpa using h0, ?_⟩
      by_contra hge
      have := float32_gap m e hm (not_lt.mp hge)
      push_cast at h1
      linarith
    · rintro ⟨h0, h1⟩
      exact ⟨by simpa using h0, lt_trans h1 h06⟩


/-! ## The Renderer: lemmas -/

theorem len_append (a b : String) : len (a ++ b) = len a + len b := by
  show String.utf8Len (a ++ b).data = String.utf8Len a.data + String.utf8Len b.data
  rw [String.data_append, String.utf8Len_append]

theorem len_strings_Repeat_space (n : Nat) : len (strings_Repeat " " n) = n := by
  induction n with
  | zero => rfl
  | succ n ih =>
    rw [strings_Repeat, len_append, ih, Nat.add_comm]
    rfl

/-- The loop body on a message with results. -/
theorem renderBody_hasTranscript (verbose : Bool) (maxLine : Nat)
    (resp : StreamingRecognizeResponse) (r : StreamingRecognitionResult)
    (rs : List StreamingRecognitionResult) (a : SpeechRecognitionAlternative)
    (as : List SpeechRecognitionAlternative) (h1 : resp.results = some (r :: rs))
    (h2 : r.alternatives = a :: as) :
    renderBody verbose maxLine resp
      = { events := dump verbose resp ++ [.print (eraseText maxLine)]
            ++ (if lowStability r.stability then [.print "?"] else [])
            ++ [.print a.transcript] ++ (if verbose then [.print "\n"] else [])
            ++ endOfSpeech resp
          maxLine := if len a.transcript + 1 > maxLine then len a.transcript + 1 else maxLine
          panicked := false } := by
  unfold renderBody
  rw [h1]
  simp only [h2]

theorem renderBody_maxLine_le (verbose : Bool) (maxLine : Nat)
    (resp : StreamingRecognizeResponse) :
    maxLine ≤ (renderBody verbose maxLine resp).maxLine := by
  cases h : resp.results with
  | none => unfold renderBody; rw [h]
  | some rs =>
    cases rs with
    | nil => unfold renderBody; rw [h]
    | cons r rs =>
      cases h2 : r.alternatives with
      | nil => unfold renderBody; rw [h]; simp only [h2]; exact Nat.le_refl _
      | cons a as =>
        rw [renderBody_hasTranscript verbose maxLine resp r rs a as h h2]
        simp only
        split_ifs <;> omega

theorem renderBody_renderable (verbose : Bool) (maxLine : Nat)
    (resp : StreamingRecognizeResponse) (h : Renderable resp) :
    (renderBody verbose maxLine resp).panicked = false := by
  rcases h with h | ⟨r, rs, a, as, h1, h2⟩
  · unfold renderBody; rw [h]
  · rw [renderBody_hasTranscript verbose maxLine resp r rs a as h1 h2]

theorem rendererLoop_maxLine_le (verbose : Bool)
    (recvs : List (Except GoError StreamingRecognizeResponse)) :
    ∀ maxLine, maxLine ≤ (rendererLoop verbose recvs maxLine).maxLine := by
  induction recvs with
  | nil => intro maxLine; exact Nat.le_refl _
  | cons x recvs ih =>
    intro maxLine
    cases x with
    | error err => exact Nat.le_refl _
    | ok resp =>
      unfold rendererLoop
      simp only
      split_ifs
      · exact renderBody_maxLine_le verbose maxLine resp
      · exact Nat.le_trans (renderBody_maxLine_le verbose maxLine resp) (ih _)

/-- The loop over messages none of which panics, followed by further receives. -/
theorem rendererLoop_append (verbose : Bool) (msgs : List StreamingRecognizeResponse)
    (rest : List (Except GoError StreamingRecognizeResponse))
    (h : ∀ m ∈ msgs, Renderable m) :
    ∀ maxLine, rendererLoop verbose (msgs.map Except.ok ++ rest) maxLine
      = { events := (renderAll verbose msgs maxLine).1
            ++ (rendererLoop verbose rest (renderAll verbose msgs maxLine).2).events
          maxLine := (rendererLoop verbose rest (renderAll verbose msgs maxLine).2).maxLine
          outcome := (rendererLoop verbose rest (renderAll verbose msgs maxLine).2).outcome } := by
  induction msgs with
  | nil => intro maxLine; simp [renderAll]
  | cons m msgs ih =>
    intro maxLine
    have hm := renderBody_renderable verbose maxLine m (h m (by simp))
    rw [List.map_cons, List.cons_append, rendererLoop]
    simp only [hm, Bool.false_eq_true, if_false]
    rw [ih (fun x hx => h x (by simp [hx]))]
    simp [renderAll, List.append_assoc]

theorem renderAll_maxLine (verbose : Bool) (msgs : List StreamingRecognizeResponse)
    (h : ∀ m ∈ msgs, Renderable m) (maxLine : Nat) :
    (rendererLoop verbose (msgs.map Except.ok) maxLine).maxLine
      = (renderAll verbose msgs maxLine).2 := by
  have := rendererLoop_append verbose msgs [] h maxLine
  rw [List.append_nil] at this
  rw [this]
  rfl



/-! ## The stability constants: lemmas -/

theorem lowStability_0_59 : lowStability f32_0_59 = true := by
  simp only [lowStability, Float32.lt, f32_0_59, f32_0_0, f32_0_6, Bool.and_eq_true,
    decide_eq_true_eq]
  rw [zpow_neg]
  norm_num

theorem lowStability_0_0 : lowStability f32_0_0 = false := by
  simp [lowStability, Float32.lt, f32_0_0]

theorem lowStability_0_6 : lowStability f32_0_6 = false := by
  simp [lowStability, Float32.lt, f32_0_6]

/-! ## The rendered line: lemmas -/

theorem printedLen_append (a b : List MainEvent) :
    printedLen (a ++ b) = printedLen a + printedLen b := by
  induction a with
  | nil => simp [printedLen]
  | cons e a ih =>
    cases e <;> simp [printedLen, ih, Nat.add_assoc]

theorem printedLen_endOfSpeech (resp : StreamingRecognizeResponse) :
    printedLen (endOfSpeech resp) = 0 := by
  unfold endOfSpeech
  split_ifs <;> rfl

theorem hasTranscript_renderable {resp : StreamingRecognizeResponse} (h : HasTranscript resp) :
    Renderable resp := Or.inr h

/-- The loop body on a message with results, outside verbose mode: the erase
text with the current `maxLine`, then a line of at most as many bytes as the
new `maxLine`. -/
theorem renderBody_line (maxLine : Nat) (resp : StreamingRecognizeResponse)
    (h : HasTranscript resp) :
    ∃ line, (renderBody false maxLine resp).events = .print (eraseText maxLine) :: line ∧
      printedLen line ≤ (renderBody false maxLine resp).maxLine := by
  obtain ⟨r, rs, a, as, h1, h2⟩ := h
  rw [renderBody_hasTranscript false maxLine resp r rs a as h1 h2]
  refine ⟨(if lowStability r.stability then [.print "?"] else [])
    ++ [.print a.transcript] ++ endOfSpeech resp, ?_, ?_⟩
  · simp [dump]
  · simp only [printedLen_append, printedLen_endOfSpeech]
    have hq : len "?" = 1 := rfl
    split_ifs <;> simp [printedLen, hq] <;> omega

/-! ## The session and the main goroutine: lemmas -/

theorem stepSender_main (env : Env) (s : Session) :
    (s.stepSender env).maxLine = s.maxLine ∧ (s.stepSender env).recvs = s.recvs ∧
    (s.stepSender env).outcome = s.outcome ∧
    mainEvents (s.stepSender env).trace = mainEvents s.trace := by
  unfold Session.stepSender
  cases s.pc with
  | start => simp [mainEvents_append, mainEvents]
  | loop =>
    cases s.vars.rerr with
    | none => simp [mainEvents_append, mainEvents_sender]
    | some e => simp [mainEvents_append, mainEvents_sender]
  | done => simp

theorem stepSender_follows (env : Env) (s : Session) (h : s.Follows env) :
    (s.stepSender env).Follows env := by
  obtain ⟨h1, h2, h3, h4⟩ := stepSender_main env s
  unfold Session.Follows at h ⊢
  rw [h1, h2, h3, h4]
  exact h

theorem stepMain_follows (env : Env) (s : Session) (h : s.Follows env) :
    (s.stepMain env).Follows env := by
  obtain ⟨pc, vars, maxLine, recvs, outcome, trace⟩ := s
  cases outcome with
  | running =>
    cases recvs with
    | nil => exact h
    | cons r rest =>
      cases r with
      | error err =>
        simp only [Session.Follows, Session.stepMain, rendererLoop, mainEvents_append] at h ⊢
        rw [h]
        rfl
      | ok resp =>
        simp only [Session.Follows, Session.stepMain, rendererLoop] at h ⊢
        cases hp : (renderBody env.verbose maxLine resp).panicked with
        | true =>
          simp only [hp, if_true, mainEvents_append, mainEvents_main] at h ⊢
          rw [h]
          simp [mainEvents, List.append_assoc]
        | false =>
          simp only [hp, Bool.false_eq_true, if_false, mainEvents_append, mainEvents_main,
            List.append_nil] at h ⊢
          rw [h]
          simp [List.append_assoc]
  | returned err => exact h
  | panicked => exact h

theorem run_follows (env : Env) (schedule : List Goroutine) :
    ∀ s : Session, s.Follows env → (s.run env schedule).Follows env := by
  induction schedule with
  | nil => intro s h; exact h
  | cons task schedule ih =>
    intro s h
    unfold Session.run
    rw [List.foldl_cons]
    apply ih
    cases task with
    | sender => exact stepSender_follows env s h
    | main => exact stepMain_follows env s h

theorem run_outcome_of_not_running (env : Env) (schedule : List Goroutine) :
    ∀ s : Session, s.outcome ≠ .running → (s.run env schedule).outcome = s.outcome := by
  induction schedule with
  | nil => intro s _; rfl
  | cons task schedule ih =>
    intro s h
    unfold Session.run
    rw [List.foldl_cons]
    have hstep : (s.step env task).outcome = s.outcome := by
      cases task with
      | sender => exact (stepSender_main env s).2.2.1
      | main =>
        obtain ⟨pc, vars, maxLine, recvs, outcome, trace⟩ := s
        cases outcome with
        | running => exact absurd rfl h
        | returned err => rfl
        | panicked => rfl
    have := ih (s.step env task) (by rw [hstep]; exact h)
    unfold Session.run at this
    rw [this, hstep]

/-- Once the schedule has given the main goroutine one step for each message
and one more, it has left the loop. -/
theorem run_exits (env : Env) (err : GoError)
    (rest : List (Except GoError StreamingRecognizeResponse)) (schedule : List Goroutine) :
    ∀ (msgs : List StreamingRecognizeResponse) (s : Session),
      (∀ m ∈ msgs, Renderable m) → s.outcome = .running →
      s.recvs = msgs.map Except.ok ++ .error err :: rest →
      msgs.length + 1 ≤ schedule.count .main →
      (s.run env schedule).outcome ≠ .running := by
  induction schedule with
  | nil => intro msgs s _ _ _ hc; simp at hc
  | cons task schedule ih =>
    intro msgs s hm ho hr hc
    unfold Session.run
    rw [List.foldl_cons]
    cases task with
    | sender =>
      obtain ⟨_, h2, h3, _⟩ := stepSender_main env s
      exact ih msgs (s.stepSender env) hm (by rw [h3, ho]) (by rw [h2, hr])
        (by simpa using hc)
    | main =>
      obtain ⟨pc, vars, maxLine, recvs, outcome, trace⟩ := s
      simp only at ho hr
      subst ho hr
      cases msgs with
      | nil =>
        have := run_outcome_of_not_running env schedule
          (Session.stepMain env
            ⟨pc, vars, maxLine, List.map Except.ok [] ++ .error err :: rest, .running, trace⟩)
          (by simp [Session.stepMain])
        unfold Session.run at this
        show (List.foldl (Session.step env) _ schedule).outcome ≠ .running
        rw [Session.step, this]
        simp [Session.stepMain]
      | cons m ms =>
        have hp := renderBody_renderable env.verbose maxLine m (hm m (by simp))
        refine ih ms _ (fun x hx => hm x (by simp [hx])) ?_ ?_ ?_
        · simp [Session.step, Session.stepMain, hp]
        · simp [Session.step, Session.stepMain]
        · simp only [List.count_cons_self, List.length_cons] at hc
          omega

/-- The function `runAsync` under any schedule that lets the main goroutine get
to the first failing receive: it returns what `renderer` returns, having written
what `renderer` writes. -/
theorem runAsync_returns (env : Env) (msgs : List StreamingRecognizeResponse) (err : GoError)
    (rest : List (Except GoError StreamingRecognizeResponse)) (schedule : List Goroutine)
    (hc : env.clientErr = none) (hs : env.streamErr = none)
    (hr : env.recvs = msgs.map Except.ok ++ .error err :: rest)
    (hm : ∀ m ∈ msgs, Renderable m) (hn : msgs.length + 1 ≤ schedule.count .main) :
    (runAsync env schedule).outcome = (renderer env.verbose env.recvs).outcome ∧
    mainEvents (runAsync env schedule).trace = (renderer env.verbose env.recvs).events := by
  have hrun : runAsync env schedule = (Session.init env).run env schedule := by
    unfold runAsync; rw [hc, hs]
  have hf : ((Session.init env).run env schedule).Follows env :=
    run_follows env schedule _ (by
      show renderer env.verbose env.recvs = _
      simp [Session.init, mainEvents, renderer])
  have hx := run_exits env err rest schedule msgs (Session.init env) hm rfl hr hn
  rw [hrun]
  unfold Session.Follows at hf
  cases ho : ((Session.init env).run env schedule).outcome with
  | running => exact absurd ho hx
  | returned e => rw [ho] at hf; simp only at hf; rw [hf]; exact ⟨rfl, rfl⟩
  | panicked => rw [ho] at hf; simp only at hf; rw [hf]; exact ⟨rfl, rfl⟩

/-! ## The session and the Sender: lemmas -/

theorem senderEvents_append (a b : List SessionEvent) :
    senderEvents (a ++ b) = senderEvents a ++ senderEvents b := by
  simp [senderEvents]

theorem senderEvents_sender (l : List SenderEvent) :
    senderEvents (l.map SessionEvent.sender) = l := by
  induction l with
  | nil => rfl
  | cons e l ih =>
    simp only [senderEvents, List.map_cons, List.filterMap_cons] at ih ⊢
    rw [ih]

theorem senderEvents_main (l : List MainEvent) :
    senderEvents (l.map SessionEvent.main) = [] := by
  induction l with
  | nil => rfl
  | cons e l ih => simp [senderEvents]

theorem stepSender_senderInv (env : Env) (s : Session) (h : s.SenderInv env) :
    (s.stepSender env).SenderInv env := by
  obtain ⟨pc, vars, maxLine, recvs, outcome, trace⟩ := s
  obtain ⟨hinv, h⟩ := h
  cases pc with
  | start =>
    simp only at h
    obtain ⟨h1, h2, h3⟩ := h
    refine ⟨hinv, ?_⟩
    simp only [Session.stepSender, senderEvents_append, h3, h1]
    rfl
  | loop =>
    simp only at h
    cases hr : vars.rerr with
    | none =>
      simp only [Session.stepSender, hr]
      refine ⟨senderIter_inv env.bufSize env.sendRes vars hinv hr, ?_⟩
      simp only [senderEvents_append, senderEvents_sender, h]
      have : (senderIter env.bufSize env.sendRes vars).iters
          = vars.iters ++ [iteration env.bufSize env.sendRes vars] := rfl
      rw [this, List.flatMap_append]
      simp
    | some e =>
      simp only [Session.stepSender, hr]
      refine ⟨hinv, ?_, ?_⟩
      · simp only; rw [hr]; simp
      · simp only [senderEvents_append, senderEvents_sender, h]
        rfl
  | done => exact ⟨hinv, h⟩

theorem stepMain_sender (env : Env) (s : Session) :
    (s.stepMain env).pc = s.pc ∧ (s.stepMain env).vars.iters = s.vars.iters ∧
    (s.stepMain env).vars.rerr = s.vars.rerr ∧
    senderEvents (s.stepMain env).trace = senderEvents s.trace := by
  obtain ⟨pc, vars, maxLine, recvs, outcome, trace⟩ := s
  cases outcome with
  | running =>
    cases recvs with
    | nil => exact ⟨rfl, rfl, rfl, rfl⟩
    | cons r rest =>
      cases r with
      | error err =>
        refine ⟨rfl, rfl, rfl, ?_⟩
        simp [Session.stepMain, senderEvents_append, senderEvents]
      | ok resp =>
        refine ⟨rfl, ?_, ?_, ?_⟩
        · simp only [Session.stepMain]
          split_ifs <;> rfl
        · simp only [Session.stepMain]
          split_ifs <;> rfl
        · simp only [Session.stepMain, senderEvents_append, senderEvents_main]
          split_ifs <;> simp [senderEvents]
  | returned err => exact ⟨rfl, rfl, rfl, rfl⟩
  | panicked => exact ⟨rfl, rfl, rfl, rfl⟩

theorem stepMain_senderInv (env : Env) (s : Session) (h : s.SenderInv env) :
    (s.stepMain env).SenderInv env := by
  obtain ⟨h1, h2, h3, h4⟩ := stepMain_sender env s
  unfold Session.SenderInv LoopInv at h ⊢
  rw [h1, h2, h3, h4]
  exact h

theorem run_senderInv (env : Env) (schedule : List Goroutine) :
    ∀ s : Session, s.SenderInv env → (s.run env schedule).SenderInv env := by
  induction schedule with
  | nil => intro s h; exact h
  | cons task schedule ih =>
    intro s h
    unfold Session.run
    rw [List.foldl_cons]
    apply ih
    cases task with
    | sender => exact stepSender_senderInv env s h
    | main => exact stepMain_senderInv env s h

theorem init_senderInv (env : Env) : (Session.init env).SenderInv env :=
  ⟨init_inv env.bufSize _, rfl, rfl, rfl⟩

/-- Under every schedule the Sender has submitted nothing yet, or the
configuration message followed by audio alone. -/
theorem runAsync_submitted (env : Env) (schedule : List Goroutine) :
    (senderEvents (runAsync env schedule).trace).filterMap SenderEvent.message = [] ∨
    (senderEvents (runAsync env schedule).trace).filterMap SenderEvent.message
      = configRequest :: (runAsync env schedule).vars.iters.map
          fun it => StreamingRecognizeRequest.audioContent it.sent := by
  unfold runAsync
  cases hc : env.clientErr with
  | some e => left; rfl
  | none =>
    cases hs : env.streamErr with
    | some e => left; rfl
    | none =>
      simp only
      obtain ⟨_, h⟩ := run_senderInv env schedule _ (init_senderInv env)
      cases hpc : ((Session.init env).run env schedule).pc with
      | start =>
        rw [hpc] at h
        left
        rw [h.2.2]
        rfl
      | loop =>
        rw [hpc] at h
        right
        simp only at h
        rw [h, List.filterMap_cons_some (f := SenderEvent.message)
          (a := .send configRequest (env.sendRes 0)) (b := configRequest) rfl,
          filterMap_message_iterations]
      | done =>
        rw [hpc] at h
        right
        simp only at h
        rw [h.2, List.cons_append, List.filterMap_cons_some (f := SenderEvent.message)
          (a := .send configRequest (env.sendRes 0)) (b := configRequest) rfl,
          List.filterMap_append, filterMap_message_iterations]
        cases env.closeRes <;> simp [logOfClose, SenderEvent.message]

/-! ## The end-of-speech path: lemmas -/

/-- An end-of-speech message that the loop body can render closes the pipe in
the same step of the main goroutine, as the last event of that step. -/
theorem stepMain_endOfSpeech (env : Env) (s : Session) (resp : StreamingRecognizeResponse)
    (rest : List (Except GoError StreamingRecognizeResponse)) (ho : s.outcome = .running)
    (hr : s.recvs = .ok resp :: rest) (hresp : Renderable resp)
    (he : resp.endpointerType = .END_OF_SPEECH) :
    (s.stepMain env).vars.pipe.closed = true ∧
    ∃ events, (s.stepMain env).trace = s.trace ++ events ++ [.main .closePipe] := by
  obtain ⟨pc, vars, maxLine, recvs, outcome, trace⟩ := s
  simp only at ho hr
  subst ho hr
  have hp := renderBody_renderable env.verbose maxLine resp hresp
  have hev : ∃ events, (renderBody env.verbose maxLine resp).events
      = events ++ [MainEvent.closePipe] := by
    rcases hresp with h | ⟨r, rs, a, as, h1, h2⟩
    · refine ⟨dump env.verbose resp, ?_⟩
      unfold renderBody
      rw [h]
      simp [endOfSpeech, he]
    · rw [renderBody_hasTranscript env.verbose maxLine resp r rs a as h1 h2]
      simp only [endOfSpeech, he, if_true]
      exact ⟨_, rfl⟩
  obtain ⟨events, hev⟩ := hev
  have hmem : MainEvent.closePipe ∈ (renderBody env.verbose maxLine resp).events := by
    rw [hev]; simp
  constructor
  · simp only [Session.stepMain, hmem, if_true]
    rfl
  · refine ⟨events.map SessionEvent.main, ?_⟩
    simp only [Session.stepMain, hp, Bool.false_eq_true, if_false, List.append_nil, hev,
      List.map_append, List.map_cons, List.map_nil, List.append_assoc]

/-- A Sender that is in its loop when the pipe is closed still reads once, gets
`io.EOF`, and submits its buffer, unchanged, as one more audio message. -/
theorem stepSender_on_closed_pipe (env : Env) (s : Session) (hpc : s.pc = .loop)
    (hr : s.vars.rerr = none) (hclosed : s.vars.pipe.closed = true)
    (hB : 0 < env.bufSize) (hbuf : s.vars.buf.length = env.bufSize) :
    (s.stepSender env).trace
      = s.trace ++ [.sender .wait, .sender (.read 0 (some .EOF)),
          .sender (.send (.audioContent s.vars.buf) (env.sendRes s.vars.sends))] := by
  obtain ⟨pc, vars, maxLine, recvs, outcome, trace⟩ := s
  simp only at hpc hr hclosed hbuf
  subst hpc
  have hread : readAtLeast vars.pipe vars.buf env.bufSize
      = { n := 0, err := some .EOF, buf := vars.buf, pipe := vars.pipe } := by
    unfold readAtLeast
    have h1 : ¬ vars.buf.length < env.bufSize := by omega
    have h2 : ¬ env.bufSize = 0 := by omega
    simp only [h1, h2, hclosed, if_false, if_true]
  simp only [Session.stepSender, hr, iteration, hread, Iteration.events, List.map_cons,
    List.map_nil]

/-! ## The close of the outbound stream: lemmas -/

/-- A list with exactly one element that satisfies `p` splits around such an
element in one way only. -/
theorem split_unique {α : Type} (p : α → Bool) :
    ∀ (a b a' b' : List α) (x y : α), (∀ e ∈ a, p e = false) → (∀ e ∈ b, p e = false) →
      p y = true → a ++ x :: b = a' ++ y :: b' → b' = b := by
  intro a
  induction a with
  | nil =>
    intro b a' b' x y _ hb hy h
    cases a' with
    | nil =>
      simp only [List.nil_append, List.cons.injEq] at h
      exact h.2.symm
    | cons e a' =>
      simp only [List.nil_append, List.cons_append, List.cons.injEq] at h
      have : p y = false := hb y (by rw [h.2]; simp)
      rw [hy] at this
      exact absurd this (by decide)
  | cons e a ih =>
    intro b a' b' x y ha hb hy h
    cases a' with
    | nil =>
      simp only [List.nil_append, List.cons_append, List.cons.injEq] at h
      have : p e = false := ha e (by simp)
      rw [h.1, hy] at this
      exact absurd this (by decide)
    | cons e' a' =>
      simp only [List.cons_append, List.cons.injEq] at h
      exact ih b a' b' x y (fun z hz => ha z (by simp [hz])) hb hy h.2

theorem isCloseSend_iterations (its : List Iteration) :
    ∀ e ∈ its.flatMap Iteration.events, SenderEvent.isCloseSend e = false := by
  intro e he
  rw [List.mem_flatMap] at he
  obtain ⟨it, _, hit⟩ := he
  simp only [Iteration.events, List.mem_cons, List.mem_singleton, List.not_mem_nil,
    or_false] at hit
  rcases hit with rfl | rfl | rfl <;> rfl

theorem isCloseSend_logOfClose (res : Option GoError) :
    ∀ e ∈ logOfClose res, SenderEvent.isCloseSend e = false := by
  intro e he
  cases res with
  | none => simp [logOfClose] at he
  | some err =>
    simp only [logOfClose, List.mem_singleton] at he
    subst he
    rfl

theorem countP_closeSend_iterations (its : List Iteration) :
    (its.flatMap Iteration.events).countP SenderEvent.isCloseSend = 0 := by
  rw [List.countP_eq_zero]
  intro e he
  simp [isCloseSend_iterations its e he]

/-- Under every schedule the record of iterations obeys the loop invariant and
`CloseSend` has been called at most once, with no event of the Sender after it
but the log line. -/
theorem runAsync_sender (env : Env) (schedule : List Goroutine) :
    LoopInv (runAsync env schedule).vars ∧
    (senderEvents (runAsync env schedule).trace).countP SenderEvent.isCloseSend ≤ 1 ∧
    ∀ before res after,
      senderEvents (runAsync env schedule).trace = before ++ .closeSend res :: after →
      after = logOfClose env.closeRes := by
  have hnil : ∀ s : Session, senderEvents s.trace = [] →
      (senderEvents s.trace).countP SenderEvent.isCloseSend ≤ 1 ∧
      ∀ before res after, senderEvents s.trace = before ++ .closeSend res :: after →
        after = logOfClose env.closeRes := by
    intro s h
    rw [h]
    refine ⟨by simp, ?_⟩
    intro before res after hsplit
    simp at hsplit
  unfold runAsync
  cases hc : env.clientErr with
  | some e => exact ⟨init_inv env.bufSize _, hnil _ rfl⟩
  | none =>
    cases hs : env.streamErr with
    | some e => exact ⟨init_inv env.bufSize _, hnil _ rfl⟩
    | none =>
      simp only
      obtain ⟨hinv, h⟩ := run_senderInv env schedule _ (init_senderInv env)
      refine ⟨hinv, ?_⟩
      cases hpc : ((Session.init env).run env schedule).pc with
      | start =>
        rw [hpc] at h
        exact hnil _ h.2.2
      | loop =>
        rw [hpc] at h
        simp only at h
        rw [h]
        constructor
        · rw [List.countP_cons_of_neg, countP_closeSend_iterations]
          · exact Nat.zero_le _
          · simp [SenderEvent.isCloseSend]
        · intro before res after hsplit
          exfalso
          have hmem : SenderEvent.closeSend res ∈
              SenderEvent.send configRequest (env.sendRes 0)
                :: ((Session.init env).run env schedule).vars.iters.flatMap Iteration.events := by
            rw [hsplit]; simp
          rw [List.mem_cons] at hmem
          rcases hmem with hmem | hmem
          · exact absurd hmem (by simp)
          · have := isCloseSend_iterations _ _ hmem
            exact absurd this (by simp [SenderEvent.isCloseSend])
      | done =>
        rw [hpc] at h
        simp only at h
        rw [h.2]
        constructor
        · rw [List.cons_append, List.countP_cons_of_neg, List.countP_append,
            countP_closeSend_iterations, List.countP_cons_of_pos]
          · cases env.closeRes <;> simp [logOfClose, SenderEvent.isCloseSend]
          · rfl
          · simp [SenderEvent.isCloseSend]
        · intro before res after hsplit
          exact split_unique SenderEvent.isCloseSend
            (.send configRequest (env.sendRes 0)
              :: ((Session.init env).run env schedule).vars.iters.flatMap Iteration.events)
            (logOfClose env.closeRes) before after (.closeSend env.closeRes) (.closeSend res)
            (by
              intro e he
              rw [List.mem_cons] at he
              rcases he with rfl | he
              · rfl
              · exact isCloseSend_iterations _ e he)
            (isCloseSend_logOfClose env.closeRes) rfl hsplit

/-! ## The claims about the Sender -/

/-- Claim C1: the messages the Sender goroutine submits on the outbound stream
start with the one configuration message (LINEAR16, sample rate 16000, interim
results enabled) and go on with audio-content messages only.  This holds for
every buffer size, every pipe, every outcome of the sends and of the close, and
for every number of loop iterations the goroutine has got through; and in a
session it holds under every schedule of the goroutines, where the Sender has
either submitted nothing yet or the configuration followed by audio alone. -/
theorem sender_one_configuration_then_audio (bufSize : Nat) (sendRes : Nat → Option GoError)
    (closeRes : Option GoError) (fuel : Nat) (pipe : Pipe) :
    (∃ audio : List (List Byte),
      (sender bufSize sendRes closeRes fuel pipe).submitted
        = StreamingRecognizeRequest.streamingConfig
            { config := { encoding := .LINEAR16, sampleRate := 16000 }
              interimResults := true }
          :: audio.map StreamingRecognizeRequest.audioContent) ∧
    (∀ (env : Env) (schedule : List Goroutine),
      (senderEvents (runAsync env schedule).trace).filterMap SenderEvent.message = [] ∨
      ∃ audio : List (List Byte),
        (senderEvents (runAsync env schedule).trace).filterMap SenderEvent.message
          = StreamingRecognizeRequest.streamingConfig
              { config := { encoding := .LINEAR16, sampleRate := 16000 }
                interimResults := true }
            :: audio.map StreamingRecognizeRequest.audioContent) := by
  constructor
  · exact ⟨(sender bufSize sendRes closeRes fuel pipe).vars.iters.map Iteration.sent, by
      rw [submitted_eq, List.map_map]; rfl⟩
  · intro env schedule
    rcases runAsync_submitted env schedule with h | h
    · exact Or.inl h
    · exact Or.inr ⟨(runAsync env schedule).vars.iters.map Iteration.sent, by
        rw [h, List.map_map]; rfl⟩

/-- Claim C2, evaluated where it fails: buffers of 2 bytes, a standard input of
exactly 3 full buffers, every send succeeding.  The Sender submits the
configuration and then 4 audio-content messages, not 3: the fourth read returns
`io.EOF`, and line 76 sends the buffer all the same, so the last buffer
`[5, 6]` goes out twice before `CloseSend`. -/
theorem sender_three_full_buffers :
    (sender 2 allSendsOk none 10 (Pipe.ofStdin [1, 2, 3, 4, 5, 6])).events
      = [.send configRequest none,
         .wait, .read 2 none, .send (.audioContent [1, 2]) none,
         .wait, .read 2 none, .send (.audioContent [3, 4]) none,
         .wait, .read 2 none, .send (.audioContent [5, 6]) none,
         .wait, .read 0 (some .EOF), .send (.audioContent [5, 6]) none,
         .closeSend none] ∧
    ((sender 2 allSendsOk none 10 (Pipe.ofStdin [1, 2, 3, 4, 5, 6])).submitted.filter
      StreamingRecognizeRequest.isAudio).length = 4 := by
  decide

/-- Claim C3, evaluated where it fails: buffers of 2 bytes, a standard input of
one full buffer and 1 trailing byte, every send succeeding.  The short read
returns `io.ErrUnexpectedEOF` after storing the trailing byte `3` at the front of
the buffer, and line 76 sends the buffer all the same: the last audio-content
message is `[3, 2]`, the trailing byte followed by a stale byte of the buffer
before. -/
theorem sender_trailing_partial_buffer :
    (sender 2 allSendsOk none 10 (Pipe.ofStdin [1, 2, 3])).events
      = [.send configRequest none,
         .wait, .read 2 none, .send (.audioContent [1, 2]) none,
         .wait, .read 1 (some .ErrUnexpectedEOF), .send (.audioContent [3, 2]) none,
         .closeSend none] := by
  decide

/-- Claim C4, evaluated where it fails: buffers of 2 bytes, 4 bytes on standard
input, and an END_OF_SPEECH message that the main goroutine processes after the
Sender has sent the first buffer.  The main goroutine closes the pipe in that
step; the next read of the Sender returns `io.EOF`, and the Sender submits one
more audio-content message, the first buffer again, before `CloseSend`. -/
theorem session_audio_after_pipe_close :
    (runAsync endOfSpeechEnv [.sender, .sender, .main, .sender, .sender]).trace
      = [.sender (.send configRequest none),
         .sender .wait, .sender (.read 2 none), .sender (.send (.audioContent [1, 2]) none),
         .main .closePipe,
         .sender .wait, .sender (.read 0 (some .EOF)),
         .sender (.send (.audioContent [1, 2]) none),
         .sender (.closeSend none)] := by
  decide

/-- Claim C9: with a positive buffer size and a run long enough to use up
standard input, (1) no iteration of the Sender loop follows an iteration whose
read or send returned an error, and the last iteration is such an iteration;
(2) the events of the goroutine are the configuration message, the iterations,
then `CloseSend`, and after it nothing but the log line of a failed close, so
the outbound stream is closed exactly once and nothing is submitted after the
close; (3) under every schedule of the goroutines, (1) and (2) hold for as far
as the Sender has come; and (4) what `CloseSend` returns changes neither what
`runAsync` returns nor what the main goroutine writes. -/
theorem sender_stops_at_first_error_then_closes (bufSize : Nat)
    (sendRes : Nat → Option GoError) (closeRes : Option GoError) (fuel : Nat) (pipe : Pipe)
    (hB : 0 < bufSize) (hfuel : pipe.stdin.length / bufSize < fuel) :
    (∀ init it rest, (sender bufSize sendRes closeRes fuel pipe).vars.iters = init ++ it :: rest →
      it.failed = true → rest = []) ∧
    (∃ init last, (sender bufSize sendRes closeRes fuel pipe).vars.iters = init ++ [last] ∧
      last.failed = true ∧ ∀ it ∈ init, it.failed = false) ∧
    (sender bufSize sendRes closeRes fuel pipe).events
      = SenderEvent.send configRequest (sendRes 0)
          :: (sender bufSize sendRes closeRes fuel pipe).vars.iters.flatMap Iteration.events
        ++ SenderEvent.closeSend closeRes :: logOfClose closeRes ∧
    (sender bufSize sendRes closeRes fuel pipe).events.countP SenderEvent.isCloseSend = 1 ∧
    logOfClose none = [] ∧
    (∀ (env : Env) (schedule : List Goroutine),
      (∀ init it rest, (runAsync env schedule).vars.iters = init ++ it :: rest →
        it.failed = true → rest = []) ∧
      (senderEvents (runAsync env schedule).trace).countP SenderEvent.isCloseSend ≤ 1 ∧
      (∀ before res after,
        senderEvents (runAsync env schedule).trace = before ++ .closeSend res :: after →
        after = logOfClose env.closeRes) ∧
      (runAsync { env with closeRes := closeRes } schedule).outcome
        = (runAsync { env with closeRes := none } schedule).outcome ∧
      mainEvents (runAsync { env with closeRes := closeRes } schedule).trace
        = mainEvents (runAsync { env with closeRes := none } schedule).trace) := by
  have hinv : LoopInv (sender bufSize sendRes closeRes fuel pipe).vars :=
    senderLoop_inv bufSize sendRes fuel _ (init_inv bufSize pipe)
  have hexit : (sender bufSize sendRes closeRes fuel pipe).vars.rerr ≠ none :=
    senderLoop_exits bufSize sendRes hB fuel _ hfuel
  have hclosed : (sender bufSize sendRes closeRes fuel pipe).closed = some closeRes := by
    have : (sender bufSize sendRes closeRes fuel pipe).closed
        = if (sender bufSize sendRes closeRes fuel pipe).vars.rerr.isSome then some closeRes
          else none := rfl
    rw [this, if_pos]
    cases h : (sender bufSize sendRes closeRes fuel pipe).vars.rerr with
    | none => exact absurd h hexit
    | some e => rfl
  have hevents : (sender bufSize sendRes closeRes fuel pipe).events
      = SenderEvent.send configRequest (sendRes 0)
          :: (sender bufSize sendRes closeRes fuel pipe).vars.iters.flatMap Iteration.events
        ++ SenderEvent.closeSend closeRes :: logOfClose closeRes := by
    unfold SenderRun.events
    rw [hclosed]
    rfl
  refine ⟨fun init it rest h hf => hinv.no_iteration_after_failure init it rest h hf,
    hinv.2 hexit, hevents, ?_, rfl, ?_⟩
  · rw [hevents, List.cons_append, List.countP_cons_of_neg, List.countP_append,
      countP_closeSend_iterations, List.countP_cons_of_pos]
    · cases closeRes <;> rfl
    · rfl
    · simp [SenderEvent.isCloseSend]
  · intro env schedule
    obtain ⟨h1, h2, h3⟩ := runAsync_sender env schedule
    obtain ⟨h4, h5⟩ := runAsync_closeRes { env with closeRes := none } closeRes schedule
    exact ⟨fun init it rest h hf => h1.no_iteration_after_failure init it rest h hf,
      h2, h3, h4, h5⟩

/-- Claim C9 at an input: buffers of 2 bytes, 3 bytes on standard input, a failing
`CloseSend`.  The loop ends with the iteration of the short read, `CloseSend`
follows once, and its failure is logged. -/
theorem sender_stops_at_first_error_then_closes_witness :
    (sender 2 allSendsOk (some (.other "closed")) 5 (Pipe.ofStdin [1, 2, 3])).events
      = [.send configRequest none,
         .wait, .read 2 none, .send (.audioContent [1, 2]) none,
         .wait, .read 1 (some .ErrUnexpectedEOF), .send (.audioContent [3, 2]) none,
         .closeSend (some (.other "closed")), .logClose (.other "closed")] :=
  (sender_stops_at_first_error_then_closes 2 allSendsOk (some (.other "closed")) 5
    (Pipe.ofStdin [1, 2, 3]) (by decide) (by decide)).2.2.1.trans (by decide)

/-! ## The claims about the Renderer -/

/-- Claim C5: for a message whose first result has a first alternative, the loop
body writes `?` between the erase text and the transcript when the stability
`s` of the first result, a `float32`, satisfies `0 < s < 3/5` as a real number,
and writes the transcript right after the erase text otherwise (also for a
stability that is not a number or infinite).  With the `float32` values of
`0.59`, `0.0` and `0.6`: the marker is written for `0.59`, and not for `0.0`
or `0.6`.  The last two parts say that the two constants are the `float32`
values nearest to 0.59 and 0.6. -/
theorem renderBody_marker_iff_low_stability (verbose : Bool) (maxLine : Nat)
    (resp : StreamingRecognizeResponse) (r : StreamingRecognitionResult)
    (rs : List StreamingRecognitionResult) (a : SpeechRecognitionAlternative)
    (as : List SpeechRecognitionAlternative) (h1 : resp.results = some (r :: rs))
    (h2 : r.alternatives = a :: as) (hrep : r.stability.Representable) :
    ((∃ s : ℚ, r.stability.toRat? = some s ∧ 0 < s ∧ s < 3 / 5) →
      (renderBody verbose maxLine resp).events
        = dump verbose resp ++ [.print (eraseText maxLine), .print "?", .print a.transcript]
          ++ (if verbose then [.print "\n"] else []) ++ endOfSpeech resp) ∧
    (¬ (∃ s : ℚ, r.stability.toRat? = some s ∧ 0 < s ∧ s < 3 / 5) →
      (renderBody verbose maxLine resp).events
        = dump verbose resp ++ [.print (eraseText maxLine), .print a.transcript]
          ++ (if verbose then [.print "\n"] else []) ++ endOfSpeech resp) ∧
    (∀ (t : String) (n : Nat),
      (renderBody false n (transcriptUpdate t f32_0_59)).events
          = [.print (eraseText n), .print "?", .print t] ∧
      (renderBody false n (transcriptUpdate t f32_0_0)).events
          = [.print (eraseText n), .print t] ∧
      (renderBody false n (transcriptUpdate t f32_0_6)).events
          = [.print (eraseText n), .print t]) ∧
    |(9898557 : ℚ) * 2 ^ (-24 : Int) - 59 / 100| ≤ 2 ^ (-25 : Int) ∧
    |(10066330 : ℚ) * 2 ^ (-24 : Int) - 3 / 5| ≤ 2 ^ (-25 : Int) := by
  have h := renderBody_hasTranscript verbose maxLine resp r rs a as h1 h2
  have hiff := lowStability_iff r.stability hrep
  refine ⟨?_, ?_, ?_, ?_, ?_⟩
  · intro hs
    rw [h]
    simp [hiff.2 hs]
  · intro hs
    have : lowStability r.stability = false := by
      cases hl : lowStability r.stability with
      | false => rfl
      | true => exact absurd (hiff.1 hl) hs
    rw [h]
    simp [this]
  · intro t n
    have e1 := lowStability_0_59
    have e2 := lowStability_0_0
    have e3 := lowStability_0_6
    refine ⟨?_, ?_, ?_⟩
    · rw [renderBody_hasTranscript false n (transcriptUpdate t f32_0_59) _ _ _ _ rfl rfl]
      simp [e1, dump, endOfSpeech, transcriptUpdate]
    · rw [renderBody_hasTranscript false n (transcriptUpdate t f32_0_0) _ _ _ _ rfl rfl]
      simp [e2, dump, endOfSpeech, transcriptUpdate]
    · rw [renderBody_hasTranscript false n (transcriptUpdate t f32_0_6) _ _ _ _ rfl rfl]
      simp [e3, dump, endOfSpeech, transcriptUpdate]
  · rw [zpow_neg, zpow_neg, abs_le]; norm_num
  · rw [zpow_neg, zpow_neg, abs_le]; norm_num

/-- Claim C5 at an input: the transcript "hello" with stability 0.59 and
`maxLine = 4` is written as the erase text, `?`, `hello`. -/
theorem renderBody_marker_iff_low_stability_witness :
    (renderBody false 4 (transcriptUpdate "hello" f32_0_59)).events
      = [.print (eraseText 4), .print "?", .print "hello"] :=
  ((renderBody_marker_iff_low_stability false 4 (transcriptUpdate "hello" f32_0_59)
    _ _ _ _ rfl rfl ⟨by decide, by decide, by decide⟩).1
      ⟨(9898557 : ℚ) * 2 ^ (-24 : Int), rfl, by rw [zpow_neg]; norm_num,
        by rw [zpow_neg]; norm_num⟩).trans (by decide)

/-- Claim C6 as stated fails: for the transcripts "hel", "hello", "hi" outside
verbose mode the Renderer writes what the first part lists, and the erase text
of 4 spaces is nowhere followed by `hi`: the erase text before `hi` has 6
spaces, the width of `hello` plus one. -/
theorem renderer_hel_hello_hi_not_four_spaces :
    (renderer false [.ok (transcriptUpdate "hel" f32_0_0), .ok (transcriptUpdate "hello" f32_0_0),
        .ok (transcriptUpdate "hi" f32_0_0)]).events
      = [.print "\r\r", .print "hel", .print "\r    \r", .print "hello",
         .print "\r      \r", .print "hi"] ∧
    ¬ ([MainEvent.print "\r    \r", MainEvent.print "hi"] <:+:
      (renderer false [.ok (transcriptUpdate "hel" f32_0_0),
        .ok (transcriptUpdate "hello" f32_0_0), .ok (transcriptUpdate "hi" f32_0_0)]).events) := by
  have h : (renderer false [.ok (transcriptUpdate "hel" f32_0_0),
        .ok (transcriptUpdate "hello" f32_0_0), .ok (transcriptUpdate "hi" f32_0_0)]).events
      = [.print "\r\r", .print "hel", .print "\r    \r", .print "hello",
         .print "\r      \r", .print "hi"] := by
    simp only [renderer, rendererLoop, renderBody, transcriptUpdate, lowStability_0_0]
    decide
  rw [h]
  exact ⟨rfl, by decide⟩

/-- Claim C6 as amended: for the transcripts "hel", "hello", "hi" outside verbose
mode, whatever their stabilities, `maxLine` is 4 once "hel" is rendered and 6
once "hello" is rendered; the erase text written before `hello` has 4 spaces
and the erase text written before `hi` has 6 spaces, each between two carriage
returns. -/
theorem renderer_hel_hello_hi (s₁ s₂ s₃ : Float32) :
    (renderer false [.ok (transcriptUpdate "hel" s₁)]).maxLine = 4 ∧
    (renderer false [.ok (transcriptUpdate "hel" s₁), .ok (transcriptUpdate "hello" s₂)]).maxLine
      = 6 ∧
    (renderer false [.ok (transcriptUpdate "hel" s₁), .ok (transcriptUpdate "hello" s₂),
        .ok (transcriptUpdate "hi" s₃)]).events
      = [.print "\r\r"] ++ (if lowStability s₁ then [.print "?"] else [])
        ++ [.print "hel", .print ("\r" ++ "    " ++ "\r")]
        ++ (if lowStability s₂ then [.print "?"] else [])
        ++ [.print "hello", .print ("\r" ++ "      " ++ "\r")]
        ++ (if lowStability s₃ then [.print "?"] else [])
        ++ [.print "hi"] := by
  refine ⟨rfl, rfl, ?_⟩
  cases h₁ : lowStability s₁ <;> cases h₂ : lowStability s₂ <;> cases h₃ : lowStability s₃ <;>
    simp only [renderer, rendererLoop, renderBody, transcriptUpdate, h₁, h₂, h₃] <;> rfl

/-- Claim C7: outside verbose mode, take inbound messages with results, one of
them `p` and a later one `m`, and let `mlp`, `ml`, `ml'` be `maxLine` when `p` is
received, when `m` is received, and after `m` is rendered.  The loop body
starts `m` with the erase text: a carriage return, `ml` spaces, a carriage
return.  The line that was rendered for `p` after its own erase text (the
optional `?` and the transcript) has at most as many bytes as that run of
spaces, which has `ml` bytes.  And `maxLine` does not decrease:
`mlp ≤ ml ≤ ml'`. -/
theorem renderer_erase_covers_every_rendered_line
    (pre₁ pre₂ : List StreamingRecognizeResponse) (p m : StreamingRecognizeResponse)
    (mlp ml ml' : Nat) (h : ∀ x ∈ pre₁ ++ p :: pre₂ ++ [m], HasTranscript x)
    (hmlp : (renderer false (pre₁.map Except.ok)).maxLine = mlp)
    (hml : (renderer false ((pre₁ ++ p :: pre₂).map Except.ok)).maxLine = ml)
    (hml' : (renderer false ((pre₁ ++ p :: pre₂ ++ [m]).map Except.ok)).maxLine = ml') :
    ∃ line line',
      (renderBody false mlp p).events = .print (eraseText mlp) :: line ∧
      (renderBody false ml m).events
        = .print ("\r" ++ strings_Repeat " " ml ++ "\r") :: line' ∧
      printedLen line ≤ len (strings_Repeat " " ml) ∧
      len (strings_Repeat " " ml) = ml ∧
      mlp ≤ ml ∧ ml ≤ ml' := by
  have hp : HasTranscript p := h p (by simp)
  have hm : HasTranscript m := h m (by simp)
  have hpre₁ : ∀ x ∈ pre₁, Renderable x := fun x hx =>
    hasTranscript_renderable (h x (by simp [hx]))
  have hpre : ∀ x ∈ pre₁ ++ p :: pre₂, Renderable x := fun x hx =>
    hasTranscript_renderable (h x (by
      simp only [List.mem_append, List.mem_cons, List.mem_singleton] at hx ⊢
      tauto))
  obtain ⟨line, hline, hlen⟩ := renderBody_line mlp p hp
  obtain ⟨line', hline', _⟩ := renderBody_line ml m hm
  have e1 : ml = (rendererLoop false (pre₂.map Except.ok)
      (renderBody false mlp p).maxLine).maxLine := by
    rw [← hml, ← hmlp]
    unfold renderer
    rw [List.map_append, rendererLoop_append false pre₁ _ hpre₁ 0,
      renderAll_maxLine false pre₁ hpre₁ 0, List.map_cons, rendererLoop]
    simp only [renderBody_renderable false _ p (hasTranscript_renderable hp),
      Bool.false_eq_true, if_false]
  have e2 : ml' = (renderBody false ml m).maxLine := by
    have hassoc : pre₁ ++ p :: pre₂ ++ [m] = (pre₁ ++ p :: pre₂) ++ [m] := by simp
    rw [← hml', ← hml, hassoc]
    unfold renderer
    rw [List.map_append, rendererLoop_append false (pre₁ ++ p :: pre₂) _ hpre 0,
      renderAll_maxLine false (pre₁ ++ p :: pre₂) hpre 0]
    simp only [List.map_cons, List.map_nil, rendererLoop,
      renderBody_renderable false _ m (hasTranscript_renderable hm),
      Bool.false_eq_true, if_false]
  have hle : (renderBody false mlp p).maxLine ≤ ml := by
    rw [e1]; exact rendererLoop_maxLine_le false _ _
  refine ⟨line, line', hline, hline', ?_, len_strings_Repeat_space ml, ?_, ?_⟩
  · rw [len_strings_Repeat_space]; exact Nat.le_trans hlen hle
  · exact Nat.le_trans (renderBody_maxLine_le false mlp p) hle
  · rw [e2]; exact renderBody_maxLine_le false ml m

/-- Claim C7 at an input: after "hello" with stability 0.59, rendered as `?hello`
(6 bytes), the message "hi" is started with an erase text of 6 spaces. -/
theorem renderer_erase_covers_every_rendered_line_witness :
    ∃ line line',
      (renderBody false 0 (transcriptUpdate "hello" f32_0_59)).events
        = .print (eraseText 0) :: line ∧
      (renderBody false 6 (transcriptUpdate "hi" f32_0_0)).events
        = .print ("\r" ++ strings_Repeat " " 6 ++ "\r") :: line' ∧
      printedLen line ≤ len (strings_Repeat " " 6) ∧
      len (strings_Repeat " " 6) = 6 ∧
      0 ≤ 6 ∧ 6 ≤ 6 :=
  renderer_erase_covers_every_rendered_line [] [] (transcriptUpdate "hello" f32_0_59)
    (transcriptUpdate "hi" f32_0_0) 0 6 6
    (by
      intro x hx
      simp only [List.nil_append, List.cons_append, List.mem_cons, List.mem_singleton,
        List.not_mem_nil, or_false] at hx
      rcases hx with rfl | rfl
      · exact ⟨_, _, _, _, rfl, rfl⟩
      · exact ⟨_, _, _, _, rfl, rfl⟩)
    rfl rfl rfl

/-- Claim C8 as stated fails: a message whose first result has no alternative,
followed by a receive that fails with `io.EOF`.  The loop body writes the erase
text and panics at `Alternatives[0]`; the failing receive is never reached and
`runAsync` does not return nil.  The deferred newline is still written. -/
theorem renderer_panics_before_end_of_stream :
    renderer false
        [.ok { results := some [{ alternatives := [], stability := f32_0_0 }],
               endpointerType := .ENDPOINTER_EVENT_UNSPECIFIED },
         .error .EOF]
      = { events := [.print "\r\r", .print "\n"], maxLine := 0, outcome := .panicked } := by
  simp only [renderer, rendererLoop, renderBody, lowStability_0_0]
  decide

/-- Claim C8 as amended: when every message received before the first failing
receive has nil results or a first result with a first alternative, the
receive loop processes these messages in the order of arrival, writes a
newline, and returns: nil when the failure is `io.EOF`, the error itself
otherwise.  Receives after the failing one play no part.  The same holds for
`runAsync` under every schedule that gives the main goroutine a step for each
of these receives. -/
theorem renderer_receives_until_first_error (verbose : Bool)
    (msgs : List StreamingRecognizeResponse) (err : GoError)
    (rest : List (Except GoError StreamingRecognizeResponse))
    (h : ∀ m ∈ msgs, Renderable m) :
    renderer verbose (msgs.map Except.ok ++ .error err :: rest)
      = { events := (renderAll verbose msgs 0).1 ++ [.print "\n"]
          maxLine := (renderAll verbose msgs 0).2
          outcome := .returned (if err = .EOF then none else some err) } ∧
    (renderer verbose (msgs.map Except.ok ++ .error .EOF :: rest)).outcome = .returned none ∧
    (err ≠ .EOF →
      (renderer verbose (msgs.map Except.ok ++ .error err :: rest)).outcome
        = .returned (some err)) ∧
    (∀ (env : Env) (schedule : List Goroutine), env.clientErr = none → env.streamErr = none →
      env.verbose = verbose → env.recvs = msgs.map Except.ok ++ .error err :: rest →
      msgs.length + 1 ≤ schedule.count .main →
      (runAsync env schedule).outcome = .returned (if err = .EOF then none else some err) ∧
      mainEvents (runAsync env schedule).trace
        = (renderAll verbose msgs 0).1 ++ [.print "\n"]) := by
  have key : ∀ e : GoError, renderer verbose (msgs.map Except.ok ++ .error e :: rest)
      = { events := (renderAll verbose msgs 0).1 ++ [.print "\n"]
          maxLine := (renderAll verbose msgs 0).2
          outcome := .returned (if e = .EOF then none else some e) } := by
    intro e
    unfold renderer
    rw [rendererLoop_append verbose msgs _ h 0]
    rfl
  refine ⟨key err, ?_, ?_, ?_⟩
  · rw [key]
    rfl
  · intro hne
    rw [key]
    simp [hne]
  · intro env schedule hc hs hv hr hn
    obtain ⟨h1, h2⟩ := runAsync_returns env msgs err rest schedule hc hs hr h hn
    rw [h1, h2, hv, hr, key]
    exact ⟨rfl, rfl⟩

/-- Claim C8 at an input: the message "hi" and then a receive that fails with an
error other than `io.EOF`: the message is rendered, the newline written, and the
error returned. -/
theorem renderer_receives_until_first_error_witness :
    renderer false [.ok (transcriptUpdate "hi" f32_0_0), .error (.other "reset")]
      = { events := [.print "\r\r", .print "hi", .print "\n"], maxLine := 3,
          outcome := .returned (some (.other "reset")) } :=
  (renderer_receives_until_first_error false [transcriptUpdate "hi" f32_0_0]
    (.other "reset") []
    (by
      intro m hm
      rw [List.mem_singleton] at hm
      subst hm
      exact Or.inr ⟨_, _, _, _, rfl, rfl⟩)).1.trans
    (by simp only [renderAll, renderBody, transcriptUpdate, lowStability_0_0]; decide)

/-- Claim C10: for a message whose results list has a first element, with a
first alternative, the loop body does not panic; it writes, after the erase
text and the optional `?`, exactly the transcript of the first alternative of
the first result; and outside verbose mode, where the message is not dumped,
the step is the same whatever the further results and the further
alternatives are. -/
theorem renderBody_first_result_first_alternative (verbose : Bool) (maxLine : Nat)
    (resp : StreamingRecognizeResponse) (r : StreamingRecognitionResult)
    (rs : List StreamingRecognitionResult) (a : SpeechRecognitionAlternative)
    (as : List SpeechRecognitionAlternative) (h1 : resp.results = some (r :: rs))
    (h2 : r.alternatives = a :: as) :
    (renderBody verbose maxLine resp).panicked = false ∧
    (renderBody verbose maxLine resp).events
      = dump verbose resp ++ [.print (eraseText maxLine)]
          ++ (if lowStability r.stability then [.print "?"] else [])
          ++ [.print a.transcript] ++ (if verbose then [.print "\n"] else [])
          ++ endOfSpeech resp ∧
    (∀ (rs' : List StreamingRecognitionResult) (as' : List SpeechRecognitionAlternative),
      renderBody false maxLine
          { resp with results := some ({ r with alternatives := a :: as' } :: rs') }
        = renderBody false maxLine resp) := by
  have h := renderBody_hasTranscript verbose maxLine resp r rs a as h1 h2
  refine ⟨by rw [h], by rw [h], ?_⟩
  intro rs' as'
  rw [renderBody_hasTranscript false maxLine resp r rs a as h1 h2,
    renderBody_hasTranscript false maxLine
      { resp with results := some ({ r with alternatives := a :: as' } :: rs') }
      { r with alternatives := a :: as' } rs' a as' rfl rfl]
  rfl

/-- Claim C10 at an input: a message with the alternatives "hello" and "hallo",
stability 0.59, rendered with `maxLine = 4`: the erase text, `?`, `hello`. -/
theorem renderBody_first_result_first_alternative_witness :
    (renderBody false 4
        { results := some [{ alternatives := [{ transcript := "hello" }, { transcript := "hallo" }],
                             stability := f32_0_59 }],
          endpointerType := .ENDPOINTER_EVENT_UNSPECIFIED }).events
      = [.print "\r    \r", .print "?", .print "hello"] :=
  (renderBody_first_result_first_alternative false 4 _ _ _ _ _ rfl rfl).2.1.trans
    (by simp only [lowStability_0_59]; decide)

end Speechtotext
